import Mathlib

/-!
Deck-of-cards service: cards and decks

A shallow embedding of `models/cards.go` and `models/decks.go`, and of the draw handler
of `controllers/decks.go` with the helpers of `json/json.go`.

* A Go `string` is a list of runes (`GoString`); `[]rune(s)` is the list itself.
* A Go `error` result is `Option Err` (`none` is `nil`); a `(value, error)` result is
  `Except Err value`.
* A run-time panic (index or slice bound out of range) is the outcome `Run.panicked`.
* A slice `[]*Card` is `Option (List Card)`: `none` is the nil slice. Cards are never
  mutated once built, so a `*Card` is its `Card`; the capacity of a slice is taken to be
  its length.
* A method with a `*Deck` receiver argument returns the deck as the call leaves it; the
  repository `map[string]Deck` is a function from keys to stored decks.
* What the libraries compute outside the repository (`unicode.ToUpper` above ASCII,
  `uuid.Parse`, `uuid.NewString`, `rand.Perm`) is supplied by `Env`, and what
  `encoding/json` writes by `JSONLib`.
-/

namespace Tbupt

/-! ## Runtime model -/

/-- Go string, as its sequence of runes. -/
abbrev GoString := List Char

/-- Outcome of running a Go function: it returns, or it panics. -/
inductive Run (α : Type) where
  | done (a : α) : Run α
  | panicked : Run α
  deriving DecidableEq, Repr

/-- Error values declared in `models/cards.go` and `models/decks.go`. -/
inductive Err where
  | ErrCardCodeValueInvalid
  | ErrCardCodeSuitInvalid
  | ErrNotEnoughCards
  | ErrDeckOpened
  | ErrNotFound
  | ErrUUIDRequired
  | ErrUUIDInvalid
  deriving DecidableEq, Repr

instance instDecidableEqExcept {ε α : Type} [DecidableEq ε] [DecidableEq α] :
    DecidableEq (Except ε α) := fun a b =>
  match a, b with
  | .ok x, .ok y => if h : x = y then isTrue (by rw [h]) else isFalse (fun h2 => h (by cases h2; rfl))
  | .error x, .error y =>
    if h : x = y then isTrue (by rw [h]) else isFalse (fun h2 => h (by cases h2; rfl))
  | .ok _, .error _ => isFalse (fun h => by cases h)
  | .error _, .ok _ => isFalse (fun h => by cases h)

/-- Results of the library calls made during one call into the models package. -/
structure Env where
  /-- Result of `unicode.ToUpper` on a rune above U+007F. -/
  toUpperNonASCII : Char → Char
  /-- Whether `uuid.Parse` returns a nil error. -/
  uuidParseOk : GoString → Bool
  /-- The empty string does not parse: `uuid.Parse` rejects its length. -/
  uuidParse_empty : uuidParseOk [] = false
  /-- Result of `uuid.NewString()`. -/
  uuidNewString : GoString
  /-- A string made by `uuid.NewString` parses. -/
  uuidNewString_ok : uuidParseOk uuidNewString = true
  /-- Result of `rand.Perm n`. -/
  randPerm : Nat → List Nat
  /-- The list `rand.Perm n` is a permutation of `0, ..., n-1`. -/
  randPerm_perm : ∀ n, (randPerm n).Perm (List.range n)

/-! ## Library functions -/

/-- Go `unicode.IsSpace`. -/
def isSpace (c : Char) : Bool :=
  let n := c.toNat
  (9 ≤ n && n ≤ 13) || n == 32 || n == 0x85 || n == 0xA0 || n == 0x1680 ||
  (0x2000 ≤ n && n ≤ 0x200A) || n == 0x2028 || n == 0x2029 || n == 0x202F ||
  n == 0x205F || n == 0x3000

/-- Go `strings.TrimSpace`. -/
def TrimSpace (s : GoString) : GoString :=
  ((s.dropWhile isSpace).reverse.dropWhile isSpace).reverse

/-- Go `unicode.ToUpper`: ASCII letters are shifted, runes above ASCII go through the
Unicode tables. -/
def toUpperRune (env : Env) (c : Char) : Char :=
  if c.toNat < 128 then
    if 97 ≤ c.toNat ∧ c.toNat ≤ 122 then Char.ofNat (c.toNat - 32) else c
  else env.toUpperNonASCII c

/-- Go `strings.ToUpper`. -/
def ToUpper (env : Env) (s : GoString) : GoString :=
  s.map (toUpperRune env)

/-- Whether the rune is one of the bytes `0` to `9`. -/
def isDigit (c : Char) : Bool :=
  48 ≤ c.toNat && c.toNat ≤ 57

/-- Value of a string of decimal digits, most significant first. -/
def digitsValue (ds : List Char) : Nat :=
  ds.foldl (fun n c => n * 10 + (c.toNat - 48)) 0

/-- Go `strconv.Atoi` on a 64-bit platform: an optional sign, then one or more decimal
digits, the value within the range of `int`; `none` when it returns an error. -/
def Atoi (s : GoString) : Option Int :=
  let neg : Bool := match s with
    | '-' :: _ => true
    | _ => false
  let ds : List Char := match s with
    | '-' :: t => t
    | '+' :: t => t
    | _ => s
  if ds.isEmpty || !ds.all isDigit then none
  else
    let n := digitsValue ds
    if neg then (if 2 ^ 63 < n then none else some (-(n : Int)))
    else (if 2 ^ 63 ≤ n then none else some (n : Int))

/-- Go `strings.Split(s, ",")`: the pieces between commas, at least one piece. -/
def splitComma : GoString → List GoString
  | [] => [[]]
  | c :: cs =>
    if c = ',' then [] :: splitComma cs
    else
      match splitComma cs with
      | [] => [[c]]
      | p :: ps => (c :: p) :: ps

/-- First byte of the UTF-8 encoding of a rune, as the rune `string(b)` holds. -/
def firstByte (c : Char) : Char :=
  let n := c.toNat
  if n < 0x80 then c
  else if n < 0x800 then Char.ofNat (0xC0 + n / 64)
  else if n < 0x10000 then Char.ofNat (0xE0 + n / 4096)
  else Char.ofNat (0xF0 + n / 262144)

/-! ## Cards (`models/cards.go`) -/

abbrev Suit := GoString
abbrev Value := GoString

def SuitClubs : Suit := "CLUBS".toList
def SuitDiamonds : Suit := "DIAMONDS".toList
def SuitHearts : Suit := "HEARTS".toList
def SuitSpades : Suit := "SPADES".toList

def ValueAce : Value := "ACE".toList
def ValueJack : Value := "JACK".toList
def ValueQueen : Value := "QUEEN".toList
def ValueKing : Value := "KING".toList

/-- The map `suitsCodeMap`; `none` when the key is absent. -/
def suitsCodeMap (r : Char) : Option Suit :=
  if r = 'C' then some SuitClubs
  else if r = 'D' then some SuitDiamonds
  else if r = 'H' then some SuitHearts
  else if r = 'S' then some SuitSpades
  else none

/-- The map `alphaValuesCodeMap`; `none` when the key is absent. -/
def alphaValuesCodeMap (r : Char) : Option Value :=
  if r = 'A' then some ValueAce
  else if r = 'J' then some ValueJack
  else if r = 'Q' then some ValueQueen
  else if r = 'K' then some ValueKing
  else none

def suits : List Suit := [SuitSpades, SuitDiamonds, SuitClubs, SuitHearts]

def values : List Value :=
  [ValueAce, "2".toList, "3".toList, "4".toList, "5".toList, "6".toList, "7".toList,
   "8".toList, "9".toList, "10".toList, ValueJack, ValueQueen, ValueKing]

/-- The method `Suit.Code`: `string(s[0])`, which panics on the empty suit. -/
def Suit.Code (s : Suit) : Run GoString :=
  match s with
  | [] => .panicked
  | c :: _ => .done [firstByte c]

/-- The method `Value.Code`: the value itself when `Atoi` accepts it, else its first
rune (a panic on the empty value). -/
def Value.Code (v : Value) : Run GoString :=
  match Atoi v with
  | none =>
    match v with
    | [] => .panicked
    | c :: _ => .done [c]
  | some _ => .done v

structure Card where
  Value : Value
  Suit : Suit
  Code : GoString
  deriving DecidableEq, Repr

/-- The function `NewCard`. -/
def NewCard (value : Value) (suit : Suit) : Run Card :=
  match Value.Code value with
  | .panicked => .panicked
  | .done vc =>
    match Suit.Code suit with
    | .panicked => .panicked
    | .done sc => .done { Value := value, Suit := suit, Code := vc ++ sc }

/-- The method `cardValidator.normalizeCode`. -/
def cardValidator.normalizeCode (env : Env) (card : Card) : Option Err × Card :=
  (none, { card with Code := ToUpper env (TrimSpace card.Code) })

/-- The method `cardValidator.checkCodeValue`. -/
def cardValidator.checkCodeValue (card : Card) : Option Err × Card :=
  match card.Code with
  | [] => (none, card)
  | r0 :: rest =>
    match alphaValuesCodeMap r0 with
    | some _ => (none, card)
    | none =>
      match Atoi (r0 :: rest).dropLast with
      | none => (some .ErrCardCodeValueInvalid, card)
      | some numVal =>
        if numVal > 10 ∨ numVal < 1 then (some .ErrCardCodeValueInvalid, card)
        else (none, card)

/-- The method `cardValidator.checkCodeSuit`. -/
def cardValidator.checkCodeSuit (card : Card) : Option Err × Card :=
  match card.Code.getLast? with
  | none => (none, card)
  | some l =>
    match suitsCodeMap l with
    | none => (some .ErrCardCodeSuitInvalid, card)
    | some _ => (none, card)

/-- The function `runCardValFuncs`: run the checks in order up to the first error. -/
def runCardValFuncs (card : Card) : List (Card → Option Err × Card) → Option Err × Card
  | [] => (none, card)
  | fn :: fns =>
    match fn card with
    | (some e, c) => (some e, c)
    | (none, c) => runCardValFuncs c fns

/-- The method `staticCardStorage.ByCode`. -/
def staticCardStorage.ByCode (code : GoString) : Run (Except Err Card) :=
  match code.getLast? with
  | none => .panicked
  | some l =>
    let suit : Suit := (suitsCodeMap l).getD []
    let value : Value :=
      match code.head? with
      | none => []
      | some r0 =>
        match alphaValuesCodeMap r0 with
        | some v => v
        | none => code.dropLast
    match NewCard value suit with
    | .panicked => .panicked
    | .done c => .done (.ok c)

/-- Appending one card per suit and value, as the loops of `All` do. -/
def appendCards (cards : List Card) : List (Value × Suit) → Run (List Card)
  | [] => .done cards
  | (v, s) :: rest =>
    match NewCard v s with
    | .panicked => .panicked
    | .done c => appendCards (cards ++ [c]) rest

/-- The method `staticCardStorage.All`. -/
def staticCardStorage.All : Run (Except Err (Option (List Card))) :=
  match appendCards [] (suits.flatMap (fun suit => values.map (fun value => (value, suit)))) with
  | .panicked => .panicked
  | .done cards => .done (.ok (some cards))

/-- The method `cardValidator.ByCode`. -/
def cardValidator.ByCode (env : Env) (code : GoString) : Run (Except Err Card) :=
  match runCardValFuncs { Value := [], Suit := [], Code := code }
      [cardValidator.normalizeCode env, cardValidator.checkCodeValue,
       cardValidator.checkCodeSuit] with
  | (some e, _) => .done (.error e)
  | (none, card) => staticCardStorage.ByCode card.Code

/-- The loop of `cardService.ByCodes` from some index on, with the cards still to fill. -/
def ByCodesLoop (env : Env) : List GoString → Run (Except Err (List Card))
  | [] => .done (.ok [])
  | code :: codes =>
    match cardValidator.ByCode env code with
    | .panicked => .panicked
    | .done (.error e) => .done (.error e)
    | .done (.ok card) =>
      match ByCodesLoop env codes with
      | .panicked => .panicked
      | .done (.error e) => .done (.error e)
      | .done (.ok cards) => .done (.ok (card :: cards))

/-- The method `cardService.ByCodes`. -/
def cardService.ByCodes (env : Env) (codes : List GoString) :
    Run (Except Err (Option (List Card))) :=
  match ByCodesLoop env codes with
  | .panicked => .panicked
  | .done (.error e) => .done (.error e)
  | .done (.ok cards) => .done (.ok (some cards))

/-- The method `cardService.ByCodesStr`. -/
def cardService.ByCodesStr (env : Env) (codesStr : GoString) :
    Run (Except Err (Option (List Card))) :=
  cardService.ByCodes env (splitComma (TrimSpace codesStr))

/-- The method `All` of the card service (promoted through `cardValidator`). -/
def cardService.All : Run (Except Err (Option (List Card))) :=
  staticCardStorage.All

/-- The list `allCards` of `cards_test.go`, by value, suit and code. -/
def allCards : List Card :=
  [ ⟨"ACE".toList, "SPADES".toList, "AS".toList⟩, ⟨"2".toList, "SPADES".toList, "2S".toList⟩,
    ⟨"3".toList, "SPADES".toList, "3S".toList⟩, ⟨"4".toList, "SPADES".toList, "4S".toList⟩,
    ⟨"5".toList, "SPADES".toList, "5S".toList⟩, ⟨"6".toList, "SPADES".toList, "6S".toList⟩,
    ⟨"7".toList, "SPADES".toList, "7S".toList⟩, ⟨"8".toList, "SPADES".toList, "8S".toList⟩,
    ⟨"9".toList, "SPADES".toList, "9S".toList⟩, ⟨"10".toList, "SPADES".toList, "10S".toList⟩,
    ⟨"JACK".toList, "SPADES".toList, "JS".toList⟩, ⟨"QUEEN".toList, "SPADES".toList, "QS".toList⟩,
    ⟨"KING".toList, "SPADES".toList, "KS".toList⟩,
    ⟨"ACE".toList, "DIAMONDS".toList, "AD".toList⟩, ⟨"2".toList, "DIAMONDS".toList, "2D".toList⟩,
    ⟨"3".toList, "DIAMONDS".toList, "3D".toList⟩, ⟨"4".toList, "DIAMONDS".toList, "4D".toList⟩,
    ⟨"5".toList, "DIAMONDS".toList, "5D".toList⟩, ⟨"6".toList, "DIAMONDS".toList, "6D".toList⟩,
    ⟨"7".toList, "DIAMONDS".toList, "7D".toList⟩, ⟨"8".toList, "DIAMONDS".toList, "8D".toList⟩,
    ⟨"9".toList, "DIAMONDS".toList, "9D".toList⟩, ⟨"10".toList, "DIAMONDS".toList, "10D".toList⟩,
    ⟨"JACK".toList, "DIAMONDS".toList, "JD".toList⟩,
    ⟨"QUEEN".toList, "DIAMONDS".toList, "QD".toList⟩,
    ⟨"KING".toList, "DIAMONDS".toList, "KD".toList⟩,
    ⟨"ACE".toList, "CLUBS".toList, "AC".toList⟩, ⟨"2".toList, "CLUBS".toList, "2C".toList⟩,
    ⟨"3".toList, "CLUBS".toList, "3C".toList⟩, ⟨"4".toList, "CLUBS".toList, "4C".toList⟩,
    ⟨"5".toList, "CLUBS".toList, "5C".toList⟩, ⟨"6".toList, "CLUBS".toList, "6C".toList⟩,
    ⟨"7".toList, "CLUBS".toList, "7C".toList⟩, ⟨"8".toList, "CLUBS".toList, "8C".toList⟩,
    ⟨"9".toList, "CLUBS".toList, "9C".toList⟩, ⟨"10".toList, "CLUBS".toList, "10C".toList⟩,
    ⟨"JACK".toList, "CLUBS".toList, "JC".toList⟩, ⟨"QUEEN".toList, "CLUBS".toList, "QC".toList⟩,
    ⟨"KING".toList, "CLUBS".toList, "KC".toList⟩,
    ⟨"ACE".toList, "HEARTS".toList, "AH".toList⟩, ⟨"2".toList, "HEARTS".toList, "2H".toList⟩,
    ⟨"3".toList, "HEARTS".toList, "3H".toList⟩, ⟨"4".toList, "HEARTS".toList, "4H".toList⟩,
    ⟨"5".toList, "HEARTS".toList, "5H".toList⟩, ⟨"6".toList, "HEARTS".toList, "6H".toList⟩,
    ⟨"7".toList, "HEARTS".toList, "7H".toList⟩, ⟨"8".toList, "HEARTS".toList, "8H".toList⟩,
    ⟨"9".toList, "HEARTS".toList, "9H".toList⟩, ⟨"10".toList, "HEARTS".toList, "10H".toList⟩,
    ⟨"JACK".toList, "HEARTS".toList, "JH".toList⟩, ⟨"QUEEN".toList, "HEARTS".toList, "QH".toList⟩,
    ⟨"KING".toList, "HEARTS".toList, "KH".toList⟩ ]

/-! ## Decks (`models/decks.go`) -/

structure Deck where
  UUID : GoString
  Shuffled : Bool
  Remaining : Int
  Cards : Option (List Card)
  CardCodes : GoString
  Opened : Bool
  deriving DecidableEq, Repr

/-- The elements of a slice of cards; the nil slice has none. -/
def elems (cards : Option (List Card)) : List Card :=
  cards.getD []

/-- Go `len` of a slice of cards. -/
def len (cards : Option (List Card)) : Int :=
  ((elems cards).length : Int)

/-- The slice expression `cards[:count]`; out of range, it panics. -/
def sliceTo (cards : Option (List Card)) (count : Int) : Run (Option (List Card)) :=
  if count < 0 ∨ len cards < count then .panicked
  else .done (cards.map (List.take count.toNat))

/-- The slice expression `cards[count:]`; out of range, it panics. -/
def sliceFrom (cards : Option (List Card)) (count : Int) : Run (Option (List Card)) :=
  if count < 0 ∨ len cards < count then .panicked
  else .done (cards.map (List.drop count.toNat))

/-- The repository `deckMemory.decks`, a `map[string]Deck`. -/
abbrev Repo := GoString → Option Deck

/-- The map assignment `decks[key] = deck`. -/
def Repo.set (repo : Repo) (key : GoString) (deck : Deck) : Repo :=
  fun k => if k = key then some deck else repo k

/-- The repository `NewDeckService` starts from: `map[string]Deck{}`. -/
def NewDeckService : Repo :=
  fun _ => none

/-- The method `deckMemory.Create`. -/
def deckMemory.Create (repo : Repo) (deck : Deck) : Option Err × Deck × Repo :=
  (none, deck, repo.set deck.UUID deck)

/-- The method `deckMemory.ByUUID`. -/
def deckMemory.ByUUID (repo : Repo) (uuid : GoString) : Except Err Deck :=
  match repo uuid with
  | none => .error .ErrNotFound
  | some deck => .ok deck

/-- The method `deckMemory.Update`. -/
def deckMemory.Update (repo : Repo) (deck : Deck) : Option Err × Deck × Repo :=
  (none, deck, repo.set deck.UUID deck)

/-- The function `runDeckValFuncs`: run the steps in order up to the first error. -/
def runDeckValFuncs (deck : Deck) :
    List (Deck → Run (Option Err × Deck)) → Run (Option Err × Deck)
  | [] => .done (none, deck)
  | fn :: fns =>
    match fn deck with
    | .panicked => .panicked
    | .done (some e, d) => .done (some e, d)
    | .done (none, d) => runDeckValFuncs d fns

/-- The cards at the given indices, in that order; `none` when an index is out of
range. -/
def pickAll (cards : List Card) : List Nat → Option (List Card)
  | [] => some []
  | p :: ps =>
    match cards[p]?, pickAll cards ps with
    | some c, some cs => some (c :: cs)
    | _, _ => none

/-- The method `deckValidator.shuffle`. The buffer made with `deck.Remaining` entries is
written at every index, since `rand.Perm` returns that many. -/
def deckValidator.shuffle (env : Env) (deck : Deck) : Run (Option Err × Deck) :=
  if deck.Shuffled = true then
    if deck.Remaining < 0 then .panicked
    else
      match pickAll (elems deck.Cards) (env.randPerm deck.Remaining.toNat) with
      | none => .panicked
      | some cards => .done (none, { deck with Cards := some cards })
  else .done (none, deck)

/-- The method `deckValidator.setUUIDIfUnset`. -/
def deckValidator.setUUIDIfUnset (env : Env) (deck : Deck) : Run (Option Err × Deck) :=
  if deck.UUID = [] then .done (none, { deck with UUID := env.uuidNewString })
  else .done (none, deck)

/-- The method `deckValidator.setCardsByCodes`. -/
def deckValidator.setCardsByCodes (env : Env) (deck : Deck) : Run (Option Err × Deck) :=
  if deck.CardCodes ≠ [] then
    match cardService.ByCodesStr env deck.CardCodes with
    | .panicked => .panicked
    | .done (.error e) => .done (some e, deck)
    | .done (.ok cards) => .done (none, { deck with CardCodes := [], Cards := cards })
  else .done (none, deck)

/-- The method `deckValidator.setCardsIfEmpty`. -/
def deckValidator.setCardsIfEmpty (deck : Deck) : Run (Option Err × Deck) :=
  match deck.Cards with
  | none =>
    match cardService.All with
    | .panicked => .panicked
    | .done (.error e) => .done (some e, deck)
    | .done (.ok cards) => .done (none, { deck with Cards := cards })
  | some _ => .done (none, deck)

/-- The method `deckValidator.setRemaining`. -/
def deckValidator.setRemaining (deck : Deck) : Run (Option Err × Deck) :=
  .done (none, { deck with Remaining := len deck.Cards })

/-- The method `deckValidator.isValidUUID`. -/
def deckValidator.isValidUUID (env : Env) (deck : Deck) : Run (Option Err × Deck) :=
  if env.uuidParseOk deck.UUID = true then .done (none, deck)
  else .done (some .ErrUUIDInvalid, deck)

/-- The method `deckValidator.requireUUID`. -/
def deckValidator.requireUUID (deck : Deck) : Run (Option Err × Deck) :=
  if deck.UUID = [] then .done (some .ErrUUIDRequired, deck)
  else .done (none, deck)

/-- The method `deckValidator.Create`, over the in-memory repository. -/
def deckValidator.Create (env : Env) (repo : Repo) (deck : Deck) :
    Run (Option Err × Deck × Repo) :=
  match runDeckValFuncs deck
      [deckValidator.setUUIDIfUnset env, deckValidator.isValidUUID env,
       deckValidator.setCardsByCodes env, deckValidator.setCardsIfEmpty,
       deckValidator.setRemaining, deckValidator.shuffle env] with
  | .panicked => .panicked
  | .done (some e, d) => .done (some e, d, repo)
  | .done (none, d) => .done (deckMemory.Create repo d)

/-- The method `deckValidator.Update`, over the in-memory repository. -/
def deckValidator.Update (repo : Repo) (deck : Deck) : Run (Option Err × Deck × Repo) :=
  match runDeckValFuncs deck [deckValidator.requireUUID, deckValidator.setRemaining] with
  | .panicked => .panicked
  | .done (some e, d) => .done (some e, d, repo)
  | .done (none, d) => .done (deckMemory.Update repo d)

/-- The method `deckValidator.ByUUID`, over the in-memory repository. -/
def deckValidator.ByUUID (env : Env) (repo : Repo) (uuid : GoString) : Run (Except Err Deck) :=
  match runDeckValFuncs
      { UUID := uuid, Shuffled := false, Remaining := 0, Cards := none, CardCodes := [],
        Opened := false }
      [deckValidator.requireUUID, deckValidator.isValidUUID env] with
  | .panicked => .panicked
  | .done (some e, _) => .done (.error e)
  | .done (none, d) => .done (deckMemory.ByUUID repo d.UUID)

/-- The method `deckService.Draw` of the service `NewDeckService` builds: its storage is
the validator over the in-memory repository. The result is the returned pair, the deck
as the call leaves it, and the repository. -/
def deckService.Draw (repo : Repo) (deck : Deck) (count : Int) :
    Run (Except Err (Option (List Card)) × Deck × Repo) :=
  if deck.Opened = true then .done (.error .ErrDeckOpened, deck, repo)
  else if count > deck.Remaining then .done (.error .ErrNotEnoughCards, deck, repo)
  else
    match sliceTo deck.Cards count with
    | .panicked => .panicked
    | .done cards =>
      match sliceFrom deck.Cards count with
      | .panicked => .panicked
      | .done rest =>
        match deckValidator.Update repo { deck with Cards := rest } with
        | .panicked => .panicked
        | .done (some e, d, r) => .done (.error e, d, r)
        | .done (none, d, r) => .done (.ok cards, d, r)

/-- The method `deckService.Open` of the service `NewDeckService` builds. -/
def deckService.Open (repo : Repo) (deck : Deck) : Run (Option Err × Deck × Repo) :=
  deckValidator.Update repo { deck with Opened := true }

/-- Whether the string has the canonical form of a UUID: 36 bytes, hyphens at 8, 13, 18
and 23, hexadecimal digits elsewhere. -/
def canonicalUUID (s : GoString) : Bool :=
  s.length == 36 &&
  (List.range 36).all (fun i =>
    match s[i]? with
    | none => false
    | some c =>
      if i = 8 ∨ i = 13 ∨ i = 18 ∨ i = 23 then c == '-'
      else isDigit c || (97 ≤ c.toNat && c.toNat ≤ 102) || (65 ≤ c.toNat && c.toNat ≤ 70))

/-- One possible run of the libraries: no rune above ASCII changes in upper case, the
canonical UUIDs parse, the new UUID is a fixed canonical one, and the permutation of
`n` indices counts down from `n-1`. -/
def sampleEnv : Env where
  toUpperNonASCII := fun c => c
  uuidParseOk := canonicalUUID
  uuidParse_empty := by decide
  uuidNewString := "123e4567-e89b-12d3-a456-426614174000".toList
  uuidNewString_ok := by decide
  randPerm := fun n => (List.range n).reverse
  randPerm_perm := fun n => List.reverse_perm (List.range n)

/-- A deck as `Deck{UUID: ...}` with the 52 cards, the one `Test_deckService_Draw` draws
from. -/
def sampleDeck : Deck where
  UUID := "123e4567-e89b-12d3-a456-426614174000".toList
  Shuffled := false
  Remaining := 52
  Cards := some allCards
  CardCodes := []
  Opened := false

/-- The steps of `deckValidator.Create` that come before `shuffle`. -/
def createSteps (env : Env) : List (Deck → Run (Option Err × Deck)) :=
  [deckValidator.setUUIDIfUnset env, deckValidator.isValidUUID env,
   deckValidator.setCardsByCodes env, deckValidator.setCardsIfEmpty,
   deckValidator.setRemaining]

/-- The deck with its `Shuffled` flag replaced. -/
def withShuffled (b : Bool) (deck : Deck) : Deck :=
  { deck with Shuffled := b }

/-- The outcome of a step, with the `Shuffled` flag of its deck replaced. -/
def liftShuffled (b : Bool) : Run (Option Err × Deck) → Run (Option Err × Deck)
  | .panicked => .panicked
  | .done (e, d) => .done (e, withShuffled b d)

/-- The id a deck has after `setUUIDIfUnset`. -/
def idAfterCreate (env : Env) (deck : Deck) : GoString :=
  if deck.UUID = [] then env.uuidNewString else deck.UUID

/-- A call on the service that `NewDeckService` builds, with the deck the caller passes
and, for `Create`, the results of the library calls it makes. -/
inductive Call where
  | Create (env : Env) (deck : Deck)
  | Update (deck : Deck)
  | Open (deck : Deck)
  | Draw (deck : Deck) (count : Int)

/-- The repository a call leaves; a call that panics has stored nothing. -/
def repoAfter {α : Type} (repo : Repo) : Run (α × Deck × Repo) → Repo
  | .panicked => repo
  | .done (_, _, stored) => stored

/-- The repository after one call on the service. -/
def applyCall (repo : Repo) : Call → Repo
  | .Create env deck => repoAfter repo (deckValidator.Create env repo deck)
  | .Update deck => repoAfter repo (deckValidator.Update repo deck)
  | .Open deck => repoAfter repo (deckService.Open repo deck)
  | .Draw deck count => repoAfter repo (deckService.Draw repo deck count)

/-- The repository after a sequence of calls on the service, first call first. -/
def runCalls (repo : Repo) (calls : List Call) : Repo :=
  calls.foldl applyCall repo

/-- Whether the call passes, for storing under `id`, a deck whose `Opened` is false:
`Create`, `Update` or `Draw` on a deck with that id (for `Create` with an unset id, the
generated one). `Open` sets the flag before it stores. -/
def passesUnopened (id : GoString) : Call → Bool
  | .Create env deck => decide (idAfterCreate env deck = id) && !deck.Opened
  | .Update deck => decide (deck.UUID = id) && !deck.Opened
  | .Open _ => false
  | .Draw deck _ => decide (deck.UUID = id) && !deck.Opened

/-! ## The draw handler (`controllers/decks.go`, `json/json.go`) -/

/-- The text `err.Error()` of each error value, as given to `errors.New`. -/
def Err.Error : Err → GoString
  | .ErrCardCodeValueInvalid => "card code value is invalid".toList
  | .ErrCardCodeSuitInvalid => "card code suit is invalid".toList
  | .ErrNotEnoughCards => "there is not enough cards in the deck for the operation".toList
  | .ErrDeckOpened => "not permitted on opened deck".toList
  | .ErrNotFound => "resource not found".toList
  | .ErrUUIDRequired => "uuid is required".toList
  | .ErrUUIDInvalid => "uuid is not valid".toList

/-- What `encoding/json` produces for the values the draw handler encodes. -/
structure JSONLib where
  /-- Result of `json.Marshal` on a Go string. -/
  marshalString : GoString → GoString
  /-- Result of `json.Marshal` on a `[]*Card`. -/
  marshalCards : Option (List Card) → GoString
  /-- A nil slice is encoded as `null`. -/
  marshalCards_nil : marshalCards none = "null".toList

/-- What has been written to an `http.ResponseWriter`: the status code, once a header
has been written, and the body. Headers other than the status are left out. -/
structure ResponseWriter where
  status : Option Nat
  body : GoString
  deriving DecidableEq, Repr

/-- The method `WriteHeader`: the first status code written stays. -/
def ResponseWriter.WriteHeader (w : ResponseWriter) (code : Nat) : ResponseWriter :=
  match w.status with
  | none => { w with status := some code }
  | some _ => w

/-- The method `Write`: it writes the header with status 200 if none was written, then
appends to the body. -/
def ResponseWriter.Write (w : ResponseWriter) (bytes : GoString) : ResponseWriter :=
  { w.WriteHeader 200 with body := (w.WriteHeader 200).body ++ bytes }

/-- The function `json.Error` on a string: write the header, then `Encode` the string,
which writes its encoding and a newline. -/
def json.Error (lib : JSONLib) (w : ResponseWriter) (err : GoString) (code : Nat) :
    ResponseWriter :=
  (w.WriteHeader code).Write (lib.marshalString err ++ ['\n'])

/-- The function `json.Response` on a slice of cards, whose `Marshal` does not fail. -/
def json.Response (lib : JSONLib) (w : ResponseWriter) (cards : Option (List Card))
    (code : Nat) : ResponseWriter :=
  (w.WriteHeader code).Write (lib.marshalCards cards)

/-- What `decoder.Decode` makes of the request body for a `drawRequest`: a count, the
end of an empty body, or an error with its text. -/
inductive DecodeResult where
  | decoded (count : Int)
  | eof
  | failed (text : GoString)

/-- The handler `Decks.Draw` over the service of `NewDeckService`, for the id in the URL
and the decoded body: the response written and the repository left. -/
def Decks.Draw (lib : JSONLib) (env : Env) (repo : Repo) (body : DecodeResult)
    (uuid : GoString) (w : ResponseWriter) : Run (ResponseWriter × Repo) :=
  match body with
  | .failed text => .done (json.Error lib w text 400, repo)
  | .eof | .decoded _ =>
    let count : Int := match body with
      | .decoded n => n
      | _ => 0
    match deckValidator.ByUUID env repo uuid with
    | .panicked => .panicked
    | .done (.error e) =>
      if e = .ErrNotFound then .done (json.Error lib w "Deck not found".toList 404, repo)
      else .done (json.Error lib w "Unexpected Error".toList 500, repo)
    | .done (.ok deck) =>
      match deckService.Draw repo deck count with
      | .panicked => .panicked
      | .done (.error e, _, stored) =>
        .done (json.Response lib (json.Error lib w e.Error 500) none 200, stored)
      | .done (.ok cards, _, stored) => .done (json.Response lib w cards 200, stored)

/-- A string between double quotes: its JSON encoding when it holds no quote, backslash,
control character or character that `encoding/json` escapes. -/
def quoted (s : GoString) : GoString :=
  ['"'] ++ s ++ ['"']

/-- The JSON object of a card, with the field names of its struct tags. -/
def cardObject (card : Card) : GoString :=
  "\x7b\"value\":".toList ++ quoted card.Value ++ ",\"suit\":".toList ++ quoted card.Suit ++
    ",\"code\":".toList ++ quoted card.Code ++ "\x7d".toList

/-- An encoder for concrete runs: right for error texts and cards of plain letters and
digits; a nil slice is `null`. -/
def sampleJSON : JSONLib where
  marshalString := quoted
  marshalCards := fun cards =>
    match cards with
    | none => "null".toList
    | some l => ['['] ++ List.intercalate [','] (l.map cardObject) ++ [']']
  marshalCards_nil := rfl

/-- The resolver of a code-list text in the words of the specification: trim the text,
split it on commas, and hand the pieces to `ByCodes`. Trimming and splitting are the list
library's, not the models of `strings.TrimSpace` and `strings.Split` above. -/
def resolveByCodesText (env : Env) (text : GoString) : Run (Except Err (Option (List Card))) :=
  cardService.ByCodes env (((text.dropWhile isSpace).rdropWhile isSpace).splitOn ',')

/-- What `cardValidator.ByCode` does with the code once it is normalized. -/
def resolveNormalized (code : GoString) : Run (Except Err Card) :=
  match runCardValFuncs { Value := [], Suit := [], Code := code }
      [cardValidator.checkCodeValue, cardValidator.checkCodeSuit] with
  | (some e, _) => .done (.error e)
  | (none, card) => staticCardStorage.ByCode card.Code

/-! ## Normalization -/

theorem ByCode_eq_resolveNormalized (env : Env) (code : GoString) :
    cardValidator.ByCode env code = resolveNormalized (ToUpper env (TrimSpace code)) := rfl

theorem toUpperRune_of_lt (env : Env) (c : Char) (h : c.toNat < 97) : toUpperRune env c = c := by
  unfold toUpperRune
  have h1 : c.toNat < 128 := by omega
  have h2 : ¬ (97 ≤ c.toNat ∧ c.toNat ≤ 122) := by omega
  simp [h1, h2]

theorem ToUpper_of_lt (env : Env) (s : GoString) (h : ∀ c ∈ s, c.toNat < 97) :
    ToUpper env s = s := by
  unfold ToUpper
  induction s with
  | nil => rfl
  | cons a t ih =>
    have ha : toUpperRune env a = a := toUpperRune_of_lt env a (h a (List.mem_cons_self a t))
    have ht : List.map (toUpperRune env) t = t := ih (fun c hc => h c (List.mem_cons_of_mem a hc))
    simp [List.map, ha, ht]

/-- A code of upper-case ASCII without blanks at its ends resolves as it stands. -/
theorem ByCode_of_normal (env : Env) (code : GoString) (ht : TrimSpace code = code)
    (hu : ∀ c ∈ code, c.toNat < 97) :
    cardValidator.ByCode env code = resolveNormalized code := by
  rw [ByCode_eq_resolveNormalized, ht, ToUpper_of_lt env code hu]

/-! ## Cards: the standard deck and the round trip -/

/-- C1: every card that `All()` returns is found again from its code: `ByCode(c.Code)`
succeeds and returns a card equal to `c` in value, suit and code; there are 52 of them. -/
theorem C1_ByCode_roundtrip (env : Env) :
    ∃ cards : List Card, staticCardStorage.All = .done (.ok (some cards)) ∧
      cards.length = 52 ∧
      ∀ c ∈ cards, cardValidator.ByCode env c.Code = .done (.ok c) := by
  refine ⟨allCards, by decide, by decide, ?_⟩
  intro c hc
  have h1 : ∀ c ∈ allCards, TrimSpace c.Code = c.Code := by decide
  have h2 : ∀ c ∈ allCards, ∀ x ∈ c.Code, x.toNat < 97 := by decide
  have h3 : ∀ c ∈ allCards, resolveNormalized c.Code = .done (.ok c) := by decide
  rw [ByCode_of_normal env c.Code (h1 c hc) (h2 c hc)]
  exact h3 c hc

/-- C2: `All()` never fails and returns exactly the 52 cards of the test list `allCards`,
element by element; they are pairwise distinct, so are their codes, and the card at index
`13*i + j` is `NewCard(values[j], suits[i])` for the suit order SPADES, DIAMONDS, CLUBS,
HEARTS and the value order ACE, 2, ..., 10, JACK, QUEEN, KING. -/
theorem C2_All_standard_deck :
    staticCardStorage.All = .done (.ok (some allCards)) ∧
    allCards.length = 52 ∧ allCards.Nodup ∧ (allCards.map Card.Code).Nodup ∧
    suits = ["SPADES".toList, "DIAMONDS".toList, "CLUBS".toList, "HEARTS".toList] ∧
    values = ["ACE".toList, "2".toList, "3".toList, "4".toList, "5".toList, "6".toList,
      "7".toList, "8".toList, "9".toList, "10".toList, "JACK".toList, "QUEEN".toList,
      "KING".toList] ∧
    ∀ i < 4, ∀ j < 13,
      (allCards[13 * i + j]?).map Run.done =
        (suits[i]?).bind (fun suit => (values[j]?).map (fun value => NewCard value suit)) := by
  refine ⟨by decide, by decide, by decide, by decide, by decide, by decide, by decide⟩

/-! ## Draw -/

theorem len_nonneg (cards : Option (List Card)) : 0 ≤ len cards := by
  unfold len
  exact Int.natCast_nonneg _

theorem elems_map (f : List Card → List Card) (cards : Option (List Card)) (h : f [] = []) :
    elems (cards.map f) = f (elems cards) := by
  cases cards with
  | none => simp [elems, h]
  | some l => simp [elems]

theorem len_drop (cards : Option (List Card)) (count : Int) (h0 : 0 ≤ count)
    (h1 : count ≤ len cards) : len (cards.map (List.drop count.toNat)) = len cards - count := by
  unfold len at *
  rw [elems_map _ _ List.drop_nil, List.length_drop]
  omega

theorem Update_of_id (repo : Repo) (deck : Deck) (h : deck.UUID ≠ []) :
    deckValidator.Update repo deck =
      .done (none, { deck with Remaining := len deck.Cards },
        repo.set deck.UUID { deck with Remaining := len deck.Cards }) := by
  simp [deckValidator.Update, runDeckValFuncs, deckValidator.requireUUID,
    deckValidator.setRemaining, deckMemory.Update, h]

/-- C3: on a deck that is not opened, has a non-empty id and `Remaining == len(Cards)`,
`Draw` with `0 <= count <= Remaining` succeeds and returns the first `count` cards in
order; the deck is left with those cards removed and `Remaining` lowered by `count`, every
other field as it was, and the repository holds that deck under its id. -/
theorem C3_Draw_success (repo : Repo) (deck : Deck) (count : Int)
    (hOpened : deck.Opened = false) (hId : deck.UUID ≠ [])
    (hRem : deck.Remaining = len deck.Cards) (h0 : 0 ≤ count) (hc : count ≤ deck.Remaining) :
    ∃ (drawn : Option (List Card)) (after : Deck) (stored : Repo),
      deckService.Draw repo deck count = .done (.ok drawn, after, stored) ∧
      elems drawn = (elems deck.Cards).take count.toNat ∧
      elems after.Cards = (elems deck.Cards).drop count.toNat ∧
      after.Remaining = deck.Remaining - count ∧
      after = { deck with Cards := deck.Cards.map (List.drop count.toNat),
                          Remaining := deck.Remaining - count } ∧
      stored deck.UUID = some after ∧
      ∀ key, key ≠ deck.UUID → stored key = repo key := by
  have hlen : count ≤ len deck.Cards := by omega
  have hdrop := len_drop deck.Cards count h0 hlen
  refine ⟨deck.Cards.map (List.take count.toNat),
    { deck with Cards := deck.Cards.map (List.drop count.toNat),
                Remaining := deck.Remaining - count },
    repo.set deck.UUID { deck with Cards := deck.Cards.map (List.drop count.toNat),
                                   Remaining := deck.Remaining - count }, ?_, ?_, ?_, rfl, rfl,
    ?_, ?_⟩
  · have hn1 : ¬ (count > deck.Remaining) := by omega
    have hn2 : ¬ (count < 0 ∨ len deck.Cards < count) := by omega
    have hn3 : ¬ (len deck.Cards < count) := by omega
    have hn4 : ¬ (count < 0) := by omega
    simp [deckService.Draw, hOpened, hn3, hn4, hRem, sliceTo, sliceFrom, Update_of_id, hId,
      hdrop]
  · exact elems_map _ _ List.take_nil
  · exact elems_map _ _ List.drop_nil
  · simp [Repo.set]
  · intro key hkey
    simp [Repo.set, hkey]

/-- C3 at the deck of 52 cards and `count = 5`, the case `valid` of
`Test_deckService_Draw`. -/
theorem C3_Draw_success_witness :
    sampleDeck.Opened = false ∧ sampleDeck.UUID ≠ [] ∧
    sampleDeck.Remaining = len sampleDeck.Cards ∧ (0 : Int) ≤ 5 ∧ (5 : Int) ≤ sampleDeck.Remaining ∧
    ∃ (drawn : Option (List Card)) (after : Deck) (stored : Repo),
      deckService.Draw NewDeckService sampleDeck 5 = .done (.ok drawn, after, stored) ∧
      elems drawn = (elems sampleDeck.Cards).take (5 : Int).toNat ∧
      elems after.Cards = (elems sampleDeck.Cards).drop (5 : Int).toNat ∧
      after.Remaining = sampleDeck.Remaining - 5 ∧
      after = { sampleDeck with Cards := sampleDeck.Cards.map (List.drop (5 : Int).toNat),
                                Remaining := sampleDeck.Remaining - 5 } ∧
      stored sampleDeck.UUID = some after ∧
      ∀ key, key ≠ sampleDeck.UUID → stored key = NewDeckService key :=
  ⟨by decide, by decide, by decide, by decide, by decide,
    C3_Draw_success NewDeckService sampleDeck 5 (by decide) (by decide) (by decide) (by decide)
      (by decide)⟩

/-- C4: on a deck that is not opened, `Draw` with `count` greater than `Remaining` fails
with `ErrNotEnoughCards`, returns no cards, and leaves the deck and the repository as they
were. -/
theorem C4_Draw_not_enough (repo : Repo) (deck : Deck) (count : Int)
    (hOpened : deck.Opened = false) (hc : count > deck.Remaining) :
    deckService.Draw repo deck count = .done (.error .ErrNotEnoughCards, deck, repo) := by
  simp [deckService.Draw, hOpened, hc]

/-- C4 at the deck of 52 cards and `count = 99`, the case `draw more than remaining` of
`Test_deckService_Draw`. -/
theorem C4_Draw_not_enough_witness :
    sampleDeck.Opened = false ∧ (99 : Int) > sampleDeck.Remaining ∧
    deckService.Draw NewDeckService sampleDeck 99 =
      .done (.error .ErrNotEnoughCards, sampleDeck, NewDeckService) :=
  ⟨by decide, by decide, C4_Draw_not_enough NewDeckService sampleDeck 99 (by decide) (by decide)⟩

/-- C5: on a deck with `Opened == true`, `Draw` fails with `ErrDeckOpened` for every
count, zero, negative and greater than `Remaining` included, returns no cards, and leaves
the deck and the repository as they were: the opened check comes before the check of the
count. -/
theorem C5_Draw_opened (repo : Repo) (deck : Deck) (count : Int)
    (hOpened : deck.Opened = true) :
    deckService.Draw repo deck count = .done (.error .ErrDeckOpened, deck, repo) := by
  simp [deckService.Draw, hOpened]

/-- C5 at the opened deck of 52 cards: counts 0 and 99 both give `ErrDeckOpened`. -/
theorem C5_Draw_opened_witness :
    ({ sampleDeck with Opened := true } : Deck).Opened = true ∧
    deckService.Draw NewDeckService { sampleDeck with Opened := true } 0 =
      .done (.error .ErrDeckOpened, { sampleDeck with Opened := true }, NewDeckService) ∧
    deckService.Draw NewDeckService { sampleDeck with Opened := true } 99 =
      .done (.error .ErrDeckOpened, { sampleDeck with Opened := true }, NewDeckService) :=
  ⟨by decide, C5_Draw_opened NewDeckService { sampleDeck with Opened := true } 0 (by decide),
    C5_Draw_opened NewDeckService { sampleDeck with Opened := true } 99 (by decide)⟩

/-! ## Create -/

theorem runDeckValFuncs_append (fs gs : List (Deck → Run (Option Err × Deck))) (deck : Deck) :
    runDeckValFuncs deck (fs ++ gs) =
      match runDeckValFuncs deck fs with
      | .panicked => .panicked
      | .done (some e, d) => .done (some e, d)
      | .done (none, d) => runDeckValFuncs d gs := by
  induction fs generalizing deck with
  | nil => rfl
  | cons f fs ih =>
    simp only [List.cons_append, runDeckValFuncs]
    cases hf : f deck with
    | panicked => rfl
    | done r =>
      obtain ⟨e, d⟩ := r
      cases e with
      | none => exact ih d
      | some e => rfl

/-- The method `Create` is its first five steps, then `shuffle`, then the store. -/
theorem Create_eq (env : Env) (repo : Repo) (deck : Deck) :
    deckValidator.Create env repo deck =
      match runDeckValFuncs deck (createSteps env) with
      | .panicked => .panicked
      | .done (some e, d) => .done (some e, d, repo)
      | .done (none, d) =>
        match deckValidator.shuffle env d with
        | .panicked => .panicked
        | .done (some e, d2) => .done (some e, d2, repo)
        | .done (none, d2) => .done (none, d2, repo.set d2.UUID d2) := by
  have h := runDeckValFuncs_append (createSteps env) [deckValidator.shuffle env] deck
  simp only [createSteps, List.cons_append, List.nil_append] at h
  unfold deckValidator.Create
  rw [h]
  simp only [createSteps]
  cases runDeckValFuncs deck [deckValidator.setUUIDIfUnset env, deckValidator.isValidUUID env,
      deckValidator.setCardsByCodes env, deckValidator.setCardsIfEmpty,
      deckValidator.setRemaining] with
  | panicked => rfl
  | done r =>
    obtain ⟨e, d⟩ := r
    cases e with
    | some e => rfl
    | none =>
      simp only [runDeckValFuncs]
      cases deckValidator.shuffle env d with
      | panicked => rfl
      | done r2 =>
        obtain ⟨e2, d2⟩ := r2
        cases e2 with
        | some e2 => rfl
        | none => rfl

theorem idAfterCreate_ok (env : Env) (deck : Deck)
    (hId : deck.UUID = [] ∨ env.uuidParseOk deck.UUID = true) :
    env.uuidParseOk (idAfterCreate env deck) = true := by
  unfold idAfterCreate
  by_cases h : deck.UUID = []
  · simp [h, env.uuidNewString_ok]
  · rcases hId with h1 | h1
    · exact absurd h1 h
    · simp [h, h1]

theorem All_eq : cardService.All = .done (.ok (some allCards)) := by decide

/-- The first five steps on a deck without codes and without cards: the 52 cards. -/
theorem createSteps_fill (env : Env) (deck : Deck)
    (hId : deck.UUID = [] ∨ env.uuidParseOk deck.UUID = true)
    (hCodes : deck.CardCodes = []) (hCards : deck.Cards = none) :
    runDeckValFuncs deck (createSteps env) =
      .done (none, { deck with UUID := idAfterCreate env deck, Remaining := 52,
                               Cards := some allCards }) := by
  have hok := idAfterCreate_ok env deck hId
  have hlen : len (some allCards) = 52 := by decide
  unfold idAfterCreate at hok
  by_cases h : deck.UUID = []
  · simp only [h, if_true] at hok
    simp [createSteps, runDeckValFuncs, deckValidator.setUUIDIfUnset, deckValidator.isValidUUID,
      deckValidator.setCardsByCodes, deckValidator.setCardsIfEmpty, deckValidator.setRemaining,
      idAfterCreate, h, hok, hCodes, hCards, All_eq, hlen]
  · simp only [h, if_false] at hok
    simp [createSteps, runDeckValFuncs, deckValidator.setUUIDIfUnset, deckValidator.isValidUUID,
      deckValidator.setCardsByCodes, deckValidator.setCardsIfEmpty, deckValidator.setRemaining,
      idAfterCreate, h, hok, hCodes, hCards, All_eq, hlen]

theorem shuffle_of_not_shuffled (env : Env) (deck : Deck) (h : deck.Shuffled = false) :
    deckValidator.shuffle env deck = .done (none, deck) := by
  simp [deckValidator.shuffle, h]

/-- C6: on a deck with a valid or unset id, `Shuffled == false`, no `CardCodes` and nil
`Cards`, `Create` succeeds and leaves the deck with `Remaining == 52` and `Cards` equal to
the sequence `All()` returns; the deck is stored under its id. -/
theorem C6_Create_fills_all_cards (env : Env) (repo : Repo) (deck : Deck)
    (hId : deck.UUID = [] ∨ env.uuidParseOk deck.UUID = true)
    (hShuffled : deck.Shuffled = false) (hCodes : deck.CardCodes = [])
    (hCards : deck.Cards = none) :
    ∃ (after : Deck) (stored : Repo),
      deckValidator.Create env repo deck = .done (none, after, stored) ∧
      after.Remaining = 52 ∧
      staticCardStorage.All = .done (.ok after.Cards) ∧
      after = { deck with UUID := idAfterCreate env deck, Remaining := 52,
                          Cards := some allCards } ∧
      stored after.UUID = some after := by
  refine ⟨{ deck with UUID := idAfterCreate env deck, Remaining := 52, Cards := some allCards },
    repo.set (idAfterCreate env deck)
      { deck with UUID := idAfterCreate env deck, Remaining := 52, Cards := some allCards },
    ?_, rfl, All_eq, rfl, ?_⟩
  · rw [Create_eq, createSteps_fill env deck hId hCodes hCards]
    simp only []
    rw [shuffle_of_not_shuffled env _ (by exact hShuffled)]
  · simp [Repo.set]

/-- C6 at the empty deck `Deck{}`: the id is generated and the 52 cards are filled in. -/
theorem C6_Create_fills_all_cards_witness :
    (([] : GoString) = [] ∨ sampleEnv.uuidParseOk [] = true) ∧
    ∃ (after : Deck) (stored : Repo),
      deckValidator.Create sampleEnv NewDeckService
        { UUID := [], Shuffled := false, Remaining := 0, Cards := none, CardCodes := [],
          Opened := false } = .done (none, after, stored) ∧
      after.Remaining = 52 ∧ after.Cards = some allCards ∧
      staticCardStorage.All = .done (.ok after.Cards) ∧ stored after.UUID = some after := by
  refine ⟨Or.inl rfl, ?_⟩
  obtain ⟨after, stored, h1, h2, h3, h4, h5⟩ :=
    C6_Create_fills_all_cards sampleEnv NewDeckService
      { UUID := [], Shuffled := false, Remaining := 0, Cards := none, CardCodes := [],
        Opened := false } (Or.inl rfl) rfl rfl rfl
  exact ⟨after, stored, h1, h2, by rw [h4], h3, h5⟩

theorem ByCodes_ok_some (env : Env) (codes : List GoString) (cards : Option (List Card))
    (h : cardService.ByCodes env codes = .done (.ok cards)) : ∃ l, cards = some l := by
  unfold cardService.ByCodes at h
  cases hl : ByCodesLoop env codes with
  | panicked => simp [hl] at h
  | done r =>
    cases r with
    | error e => simp [hl] at h
    | ok l =>
      simp [hl] at h
      exact ⟨l, h.symm⟩

/-- The first five steps on a deck whose codes resolve: the resolved cards. -/
theorem createSteps_codes (env : Env) (deck : Deck) (cards : Option (List Card))
    (hId : deck.UUID = [] ∨ env.uuidParseOk deck.UUID = true)
    (hCodes : deck.CardCodes ≠ [])
    (hBy : cardService.ByCodesStr env deck.CardCodes = .done (.ok cards)) :
    runDeckValFuncs deck (createSteps env) =
      .done (none, { deck with UUID := idAfterCreate env deck, Remaining := len cards,
                               Cards := cards, CardCodes := [] }) := by
  have hok := idAfterCreate_ok env deck hId
  obtain ⟨l, hl⟩ := ByCodes_ok_some env _ cards hBy
  subst hl
  unfold idAfterCreate at hok
  by_cases h : deck.UUID = []
  · simp only [h, if_true] at hok
    simp [createSteps, runDeckValFuncs, deckValidator.setUUIDIfUnset, deckValidator.isValidUUID,
      deckValidator.setCardsByCodes, deckValidator.setCardsIfEmpty, deckValidator.setRemaining,
      idAfterCreate, h, hok, hCodes, hBy]
  · simp only [h, if_false] at hok
    simp [createSteps, runDeckValFuncs, deckValidator.setUUIDIfUnset, deckValidator.isValidUUID,
      deckValidator.setCardsByCodes, deckValidator.setCardsIfEmpty, deckValidator.setRemaining,
      idAfterCreate, h, hok, hCodes, hBy]

/-- C7: on a deck with a valid or unset id, `Shuffled == false` and a non-empty
`CardCodes` on which `ByCodesStr` succeeds, `Create` succeeds, replaces `Cards`, whatever
they were, with the cards `ByCodesStr(CardCodes)` returns, in that order, sets `Remaining`
to their number, clears `CardCodes`, and stores the deck under its id. -/
theorem C7_Create_from_codes (env : Env) (repo : Repo) (deck : Deck)
    (cards : Option (List Card))
    (hId : deck.UUID = [] ∨ env.uuidParseOk deck.UUID = true)
    (hShuffled : deck.Shuffled = false) (hCodes : deck.CardCodes ≠ [])
    (hBy : cardService.ByCodesStr env deck.CardCodes = .done (.ok cards)) :
    ∃ (after : Deck) (stored : Repo),
      deckValidator.Create env repo deck = .done (none, after, stored) ∧
      after.Cards = cards ∧ after.Remaining = len cards ∧ after.CardCodes = [] ∧
      after = { deck with UUID := idAfterCreate env deck, Remaining := len cards,
                          Cards := cards, CardCodes := [] } ∧
      stored after.UUID = some after := by
  refine ⟨{ deck with UUID := idAfterCreate env deck, Remaining := len cards, Cards := cards,
                       CardCodes := [] },
    repo.set (idAfterCreate env deck)
      { deck with UUID := idAfterCreate env deck, Remaining := len cards, Cards := cards,
                  CardCodes := [] },
    ?_, rfl, rfl, rfl, rfl, ?_⟩
  · rw [Create_eq, createSteps_codes env deck cards hId hCodes hBy]
    simp only []
    rw [shuffle_of_not_shuffled env _ (by exact hShuffled)]
  · simp [Repo.set]

/-- C7 at `CardCodes = "AS,10D"` on a deck that already holds the 52 cards: `Remaining`
becomes 2 and `Cards` become `NewCard(ACE, SPADES)`, `NewCard("10", DIAMONDS)`. -/
theorem C7_Create_from_codes_witness :
    (sampleDeck.UUID = [] ∨ sampleEnv.uuidParseOk sampleDeck.UUID = true) ∧
    cardService.ByCodesStr sampleEnv "AS,10D".toList =
      .done (.ok (some [⟨"ACE".toList, "SPADES".toList, "AS".toList⟩,
                        ⟨"10".toList, "DIAMONDS".toList, "10D".toList⟩])) ∧
    NewCard ValueAce SuitSpades = .done ⟨"ACE".toList, "SPADES".toList, "AS".toList⟩ ∧
    NewCard "10".toList SuitDiamonds = .done ⟨"10".toList, "DIAMONDS".toList, "10D".toList⟩ ∧
    ∃ (after : Deck) (stored : Repo),
      deckValidator.Create sampleEnv NewDeckService
        { sampleDeck with CardCodes := "AS,10D".toList } = .done (none, after, stored) ∧
      after.Remaining = 2 ∧
      after.Cards = some [⟨"ACE".toList, "SPADES".toList, "AS".toList⟩,
                          ⟨"10".toList, "DIAMONDS".toList, "10D".toList⟩] ∧
      after.CardCodes = [] ∧ stored after.UUID = some after := by
  refine ⟨Or.inr (by decide), by decide, by decide, by decide, ?_⟩
  obtain ⟨after, stored, h1, h2, h3, h4, _, h6⟩ :=
    C7_Create_from_codes sampleEnv NewDeckService { sampleDeck with CardCodes := "AS,10D".toList }
      (some [⟨"ACE".toList, "SPADES".toList, "AS".toList⟩,
             ⟨"10".toList, "DIAMONDS".toList, "10D".toList⟩])
      (Or.inr (by decide)) (by decide) (by decide) (by decide)
  exact ⟨after, stored, h1, by rw [h3]; decide, h2, h4, h6⟩

/-! ## Shuffle -/

theorem setUUIDIfUnset_withShuffled (env : Env) (b : Bool) (d : Deck) :
    deckValidator.setUUIDIfUnset env (withShuffled b d) =
      liftShuffled b (deckValidator.setUUIDIfUnset env d) := by
  unfold deckValidator.setUUIDIfUnset withShuffled
  by_cases h : d.UUID = [] <;> simp [h, liftShuffled, withShuffled]

theorem isValidUUID_withShuffled (env : Env) (b : Bool) (d : Deck) :
    deckValidator.isValidUUID env (withShuffled b d) =
      liftShuffled b (deckValidator.isValidUUID env d) := by
  unfold deckValidator.isValidUUID withShuffled
  by_cases h : env.uuidParseOk d.UUID = true <;> simp [h, liftShuffled, withShuffled]

theorem setCardsByCodes_withShuffled (env : Env) (b : Bool) (d : Deck) :
    deckValidator.setCardsByCodes env (withShuffled b d) =
      liftShuffled b (deckValidator.setCardsByCodes env d) := by
  unfold deckValidator.setCardsByCodes withShuffled
  by_cases h : d.CardCodes = []
  · simp [h, liftShuffled, withShuffled]
  · simp only [h, ne_eq, not_false_eq_true, if_true]
    cases cardService.ByCodesStr env d.CardCodes with
    | panicked => rfl
    | done r =>
      cases r with
      | error e => rfl
      | ok cards => rfl

theorem setCardsIfEmpty_withShuffled (b : Bool) (d : Deck) :
    deckValidator.setCardsIfEmpty (withShuffled b d) =
      liftShuffled b (deckValidator.setCardsIfEmpty d) := by
  unfold deckValidator.setCardsIfEmpty withShuffled
  cases h : d.Cards with
  | none => simp [All_eq, liftShuffled, withShuffled, h]
  | some l => simp [liftShuffled, withShuffled, h]

theorem setRemaining_withShuffled (b : Bool) (d : Deck) :
    deckValidator.setRemaining (withShuffled b d) =
      liftShuffled b (deckValidator.setRemaining d) := rfl

theorem runDeckValFuncs_withShuffled (b : Bool) (fs : List (Deck → Run (Option Err × Deck)))
    (hfs : ∀ f ∈ fs, ∀ d, f (withShuffled b d) = liftShuffled b (f d)) (deck : Deck) :
    runDeckValFuncs (withShuffled b deck) fs = liftShuffled b (runDeckValFuncs deck fs) := by
  induction fs generalizing deck with
  | nil => rfl
  | cons f fs ih =>
    have hf := hfs f (List.mem_cons_self f fs) deck
    have ih2 := fun d => ih (fun g hg => hfs g (List.mem_cons_of_mem f hg)) d
    simp only [runDeckValFuncs, hf]
    cases f deck with
    | panicked => rfl
    | done r =>
      obtain ⟨e, d⟩ := r
      cases e with
      | some e => rfl
      | none => exact ih2 d

theorem createSteps_withShuffled (env : Env) (b : Bool) (deck : Deck) :
    runDeckValFuncs (withShuffled b deck) (createSteps env) =
      liftShuffled b (runDeckValFuncs deck (createSteps env)) := by
  apply runDeckValFuncs_withShuffled
  intro f hf d
  simp only [createSteps, List.mem_cons, List.mem_singleton, List.not_mem_nil, or_false] at hf
  rcases hf with h | h | h | h | h <;> subst h
  · exact setUUIDIfUnset_withShuffled env b d
  · exact isValidUUID_withShuffled env b d
  · exact setCardsByCodes_withShuffled env b d
  · exact setCardsIfEmpty_withShuffled b d
  · exact setRemaining_withShuffled b d

theorem createSteps_Remaining (env : Env) (deck d : Deck)
    (h : runDeckValFuncs deck (createSteps env) = .done (none, d)) :
    d.Remaining = len d.Cards := by
  have ha := runDeckValFuncs_append
    [deckValidator.setUUIDIfUnset env, deckValidator.isValidUUID env,
     deckValidator.setCardsByCodes env, deckValidator.setCardsIfEmpty]
    [deckValidator.setRemaining] deck
  simp only [List.cons_append, List.nil_append] at ha
  simp only [createSteps] at h
  rw [ha] at h
  cases h4 : runDeckValFuncs deck [deckValidator.setUUIDIfUnset env,
      deckValidator.isValidUUID env, deckValidator.setCardsByCodes env,
      deckValidator.setCardsIfEmpty] with
  | panicked =>
    rw [h4] at h
    simp at h
  | done r =>
    obtain ⟨e, d4⟩ := r
    cases e with
    | some e =>
      rw [h4] at h
      simp at h
    | none =>
      rw [h4] at h
      simp [runDeckValFuncs, deckValidator.setRemaining] at h
      rw [← h]

theorem pickAll_of_lt (cards : List Card) (perm : List Nat)
    (h : ∀ p ∈ perm, p < cards.length) :
    pickAll cards perm = some (perm.filterMap (fun p => cards[p]?)) := by
  induction perm with
  | nil => rfl
  | cons p ps ih =>
    have hp : p < cards.length := h p (List.mem_cons_self p ps)
    have ih2 := ih (fun q hq => h q (List.mem_cons_of_mem p hq))
    simp [pickAll, ih2, List.getElem?_eq_getElem hp]

theorem filterMap_range (cards : List Card) :
    (List.range cards.length).filterMap (fun p => cards[p]?) = cards := by
  induction cards with
  | nil => rfl
  | cons c cs ih =>
    rw [List.length_cons, List.range_succ_eq_map, List.filterMap_cons]
    simp only [List.getElem?_cons_zero, List.filterMap_map]
    have : ((fun p => (c :: cs)[p]?) ∘ Nat.succ) = (fun p => cs[p]?) := by
      funext p
      simp
    rw [this, ih]

theorem pickAll_perm (cards : List Card) (perm : List Nat)
    (h : perm.Perm (List.range cards.length)) :
    ∃ l, pickAll cards perm = some l ∧ l.Perm cards := by
  refine ⟨perm.filterMap (fun p => cards[p]?), ?_, ?_⟩
  · apply pickAll_of_lt
    intro p hp
    exact List.mem_range.mp (h.mem_iff.mp hp)
  · have := h.filterMap (fun p => cards[p]?)
    rw [filterMap_range] at this
    exact this

theorem shuffle_of_shuffled (env : Env) (deck : Deck) (hS : deck.Shuffled = true)
    (hRem : deck.Remaining = len deck.Cards) :
    ∃ l, deckValidator.shuffle env deck = .done (none, { deck with Cards := some l }) ∧
      l.Perm (elems deck.Cards) := by
  have hperm := env.randPerm_perm deck.Remaining.toNat
  have hn : deck.Remaining.toNat = (elems deck.Cards).length := by
    rw [hRem]
    simp [len]
  rw [hn] at hperm
  obtain ⟨l, hl, hp⟩ := pickAll_perm (elems deck.Cards) _ hperm
  refine ⟨l, ?_, hp⟩
  have h0 : ¬ (deck.Remaining < 0) := by
    rw [hRem]
    exact not_lt.mpr (len_nonneg _)
  simp only [deckValidator.shuffle, hS, h0, if_true, if_false, hn, hl]

theorem withShuffled_self (deck : Deck) : withShuffled deck.Shuffled deck = deck := by
  cases deck
  rfl

theorem createSteps_Shuffled (env : Env) (deck d : Deck)
    (h : runDeckValFuncs deck (createSteps env) = .done (none, d)) :
    d.Shuffled = deck.Shuffled := by
  have hc := createSteps_withShuffled env deck.Shuffled deck
  rw [withShuffled_self, h] at hc
  simp only [liftShuffled, Run.done.injEq, Prod.mk.injEq, true_and] at hc
  rw [hc]
  rfl

/-- C8: with `Shuffled == true`, whatever permutation of the indices `rand.Perm` gives,
the cards a successful `Create` leaves are a permutation of the cards the same call leaves
with `Shuffled == false`, in the same number, and `Remaining` is that number; on a deck
without codes and without cards (valid or unset id) `Create` succeeds with a permutation
of the 52 cards of `All()` and `Remaining == 52`. -/
theorem C8_shuffle_is_permutation (env : Env) (repo : Repo) (deck : Deck)
    (hShuffled : deck.Shuffled = true) :
    (∀ (after : Deck) (stored : Repo),
      deckValidator.Create env repo deck = .done (none, after, stored) →
      ∃ (plain : Deck) (stored0 : Repo),
        deckValidator.Create env repo { deck with Shuffled := false } =
          .done (none, plain, stored0) ∧
        (elems after.Cards).Perm (elems plain.Cards) ∧
        (elems after.Cards).length = (elems plain.Cards).length ∧
        after.Remaining = len plain.Cards ∧ after.Remaining = len after.Cards) ∧
    (deck.CardCodes = [] → deck.Cards = none →
      (deck.UUID = [] ∨ env.uuidParseOk deck.UUID = true) →
      ∃ (after : Deck) (stored : Repo),
        deckValidator.Create env repo deck = .done (none, after, stored) ∧
        staticCardStorage.All = .done (.ok (some allCards)) ∧
        (elems after.Cards).Perm allCards ∧ (elems after.Cards).length = 52 ∧
        after.Remaining = 52) := by
  constructor
  · intro after stored h
    rw [Create_eq] at h
    cases hp : runDeckValFuncs deck (createSteps env) with
    | panicked =>
      rw [hp] at h
      simp at h
    | done r =>
      obtain ⟨e, d1⟩ := r
      cases e with
      | some e =>
        rw [hp] at h
        simp at h
      | none =>
        rw [hp] at h
        have hR := createSteps_Remaining env deck d1 hp
        have hS : d1.Shuffled = true := by
          rw [createSteps_Shuffled env deck d1 hp, hShuffled]
        obtain ⟨l, hl, hperm⟩ := shuffle_of_shuffled env d1 hS hR
        simp only [hl, Run.done.injEq, Prod.mk.injEq, true_and] at h
        obtain ⟨hafter, _⟩ := h
        have hplain : deckValidator.Create env repo (withShuffled false deck) =
            .done (none, withShuffled false d1,
              repo.set (withShuffled false d1).UUID (withShuffled false d1)) := by
          rw [Create_eq, createSteps_withShuffled, hp]
          simp only [liftShuffled]
          rw [shuffle_of_not_shuffled env _ (by rfl)]
        refine ⟨withShuffled false d1, _, hplain, ?_, ?_, ?_, ?_⟩
        · rw [← hafter]
          exact hperm
        · rw [← hafter]
          exact hperm.length_eq
        · rw [← hafter]
          exact hR
        · rw [← hafter]
          show d1.Remaining = len (some l)
          rw [hR]
          simp only [len, elems, Option.getD_some]
          rw [hperm.length_eq]
          rfl
  · intro hCodes hCards hId
    have hp := createSteps_fill env deck hId hCodes hCards
    have h52 : (52 : Int) = len (some allCards) := by decide
    obtain ⟨l, hl, hperm⟩ := shuffle_of_shuffled env
      { deck with UUID := idAfterCreate env deck, Remaining := 52, Cards := some allCards }
      hShuffled h52
    refine ⟨{ deck with UUID := idAfterCreate env deck, Remaining := 52, Cards := some l },
      repo.set (idAfterCreate env deck)
        { deck with UUID := idAfterCreate env deck, Remaining := 52, Cards := some l },
      ?_, All_eq, ?_, ?_, ?_⟩
    · rw [Create_eq, hp]
      simp only [hl]
    · exact hperm
    · exact hperm.length_eq
    · rfl

/-- C8 at the deck `Deck{Shuffled: true}` of the test case `shuffle`: `Create` succeeds
with a permutation of the 52 cards, here in reverse order, and `Remaining == 52`. -/
theorem C8_shuffle_is_permutation_witness :
    ∃ (after : Deck) (stored : Repo),
      deckValidator.Create sampleEnv NewDeckService
        { UUID := [], Shuffled := true, Remaining := 0, Cards := none, CardCodes := [],
          Opened := false } = .done (none, after, stored) ∧
      staticCardStorage.All = .done (.ok (some allCards)) ∧
      (elems after.Cards).Perm allCards ∧ (elems after.Cards).length = 52 ∧
      after.Remaining = 52 :=
  (C8_shuffle_is_permutation sampleEnv NewDeckService
    { UUID := [], Shuffled := true, Remaining := 0, Cards := none, CardCodes := [],
      Opened := false } rfl).2 rfl rfl (Or.inl rfl)

/-! ## Resolving lists of codes -/

/-- When every code resolves, `ByCodes` returns the cards, one per code, in order. -/
theorem ByCodes_of_all_ok (env : Env) (codes : List GoString) (cards : List Card)
    (h : List.Forall₂ (fun code card => cardValidator.ByCode env code = .done (.ok card))
      codes cards) :
    cardService.ByCodes env codes = .done (.ok (some cards)) := by
  have hl : ByCodesLoop env codes = .done (.ok cards) := by
    induction h with
    | nil => rfl
    | cons h1 _ ih => simp only [ByCodesLoop, h1, ih]
  simp only [cardService.ByCodes, hl]

/-- When the codes before some code resolve and that code fails, `ByCodes` returns its
error and no cards. -/
theorem ByCodes_of_first_error (env : Env) (pre post : List GoString) (code : GoString)
    (cards : List Card) (e : Err)
    (h : List.Forall₂ (fun code card => cardValidator.ByCode env code = .done (.ok card))
      pre cards)
    (he : cardValidator.ByCode env code = .done (.error e)) :
    cardService.ByCodes env (pre ++ code :: post) = .done (.error e) := by
  have hl : ByCodesLoop env (pre ++ code :: post) = .done (.error e) := by
    induction h with
    | nil => simp only [List.nil_append, ByCodesLoop, he]
    | cons h1 _ ih =>
      rw [List.cons_append, ByCodesLoop, h1]
      simp only [ih]
  simp only [cardService.ByCodes, hl]

/-- When the codes before some code resolve and the lookup of that code panics, so does
`ByCodes`. -/
theorem ByCodes_of_first_panic (env : Env) (pre post : List GoString) (code : GoString)
    (cards : List Card)
    (h : List.Forall₂ (fun code card => cardValidator.ByCode env code = .done (.ok card))
      pre cards)
    (he : cardValidator.ByCode env code = .panicked) :
    cardService.ByCodes env (pre ++ code :: post) = .panicked := by
  have hl : ByCodesLoop env (pre ++ code :: post) = .panicked := by
    induction h with
    | nil => simp only [List.nil_append, ByCodesLoop, he]
    | cons h1 _ ih =>
      rw [List.cons_append, ByCodesLoop, h1]
      simp only [ih]
  simp only [cardService.ByCodes, hl]

theorem ByCode_empty (env : Env) : cardValidator.ByCode env [] = .panicked := rfl

theorem ByCode_AS (env : Env) :
    cardValidator.ByCode env "AS".toList =
      .done (.ok ⟨"ACE".toList, "SPADES".toList, "AS".toList⟩) := by
  rw [ByCode_of_normal env "AS".toList (by decide) (by decide)]
  decide

theorem ByCode_X1S (env : Env) :
    cardValidator.ByCode env "X1S".toList = .done (.error .ErrCardCodeValueInvalid) := by
  rw [ByCode_of_normal env "X1S".toList (by decide) (by decide)]
  decide

/-- C9, at the code list `["AS", ""]`: the first code resolves to the ACE of SPADES, the
lookup of the empty code indexes `r[len(r)-1]` on no runes, and `ByCodes` panics: it
returns neither two cards nor an error. On `["AS", "X1S"]` it returns
`ErrCardCodeValueInvalid`. -/
theorem C9_ByCodes_empty_code_panics (env : Env) :
    cardValidator.ByCode env "AS".toList =
      .done (.ok ⟨"ACE".toList, "SPADES".toList, "AS".toList⟩) ∧
    cardValidator.ByCode env "".toList = .panicked ∧
    cardService.ByCodes env ["AS".toList, "".toList] = .panicked ∧
    cardService.ByCodes env ["AS".toList, "X1S".toList] =
      .done (.error .ErrCardCodeValueInvalid) := by
  refine ⟨ByCode_AS env, ByCode_empty env, ?_, ?_⟩
  · exact ByCodes_of_first_panic env ["AS".toList] [] [] _
      (List.Forall₂.cons (ByCode_AS env) List.Forall₂.nil) (ByCode_empty env)
  · exact ByCodes_of_first_error env ["AS".toList] [] "X1S".toList _ _
      (List.Forall₂.cons (ByCode_AS env) List.Forall₂.nil) (ByCode_X1S env)

/-! ## Rank validation -/

theorem staticCardStorage_ByCode_ne_error (code : GoString) (e : Err) :
    staticCardStorage.ByCode code ≠ .done (.error e) := by
  unfold staticCardStorage.ByCode
  cases code.getLast? with
  | none => simp
  | some l =>
    simp only []
    split <;> simp

theorem alphaValuesCodeMap_eq_none (r : Char)
    (h : some r ∉ [some 'A', some 'J', some 'Q', some 'K']) : alphaValuesCodeMap r = none := by
  simp only [List.mem_cons, Option.some.injEq, List.mem_singleton, List.not_mem_nil, or_false,
    not_or] at h
  obtain ⟨h1, h2, h3, h4⟩ := h
  simp [alphaValuesCodeMap, h1, h2, h3, h4]

/-- The result on a normalized code that starts with none of A, J, Q, K. -/
theorem resolveNormalized_rank (code : GoString)
    (hAlpha : code.head? ∉ [some 'A', some 'J', some 'Q', some 'K']) (hne : code ≠ []) :
    resolveNormalized code = .done (.error .ErrCardCodeValueInvalid) ↔
      ¬ ∃ n : Int, Atoi code.dropLast = some n ∧ 1 ≤ n ∧ n ≤ 10 := by
  cases code with
  | nil => exact absurd rfl hne
  | cons r0 rest =>
    have ha : alphaValuesCodeMap r0 = none := alphaValuesCodeMap_eq_none r0 hAlpha
    cases hA : Atoi (r0 :: rest).dropLast with
    | none =>
      simp [resolveNormalized, runCardValFuncs, cardValidator.checkCodeValue, ha, hA]
    | some n =>
      by_cases hr : n > 10 ∨ n < 1
      · have hn : ¬ (1 ≤ n ∧ n ≤ 10) := by omega
        simp [resolveNormalized, runCardValFuncs, cardValidator.checkCodeValue, ha, hA, hr, hn]
      · have hn : 1 ≤ n ∧ n ≤ 10 := by omega
        have hleft : resolveNormalized (r0 :: rest) ≠ .done (.error .ErrCardCodeValueInvalid) := by
          simp only [resolveNormalized, runCardValFuncs, cardValidator.checkCodeValue, ha, hA, hr,
            if_false, cardValidator.checkCodeSuit]
          cases (r0 :: rest).getLast? with
          | none =>
            dsimp only
            exact staticCardStorage_ByCode_ne_error _ _
          | some l =>
            dsimp only
            cases suitsCodeMap l with
            | none => simp
            | some s =>
              dsimp only
              exact staticCardStorage_ByCode_ne_error _ _
        constructor
        · intro h
          exact absurd h hleft
        · intro h
          exact absurd ⟨n, rfl, hn⟩ h

/-- C10: for a code whose normalized form (trimmed, upper-cased) is non-empty and starts
with none of A, J, Q, K, `ByCode` fails with `ErrCardCodeValueInvalid` if and only if the
rank part, all runes but the last, does not parse as an integer from 1 to 10; that error
is the one returned also when the last rune is no suit letter. -/
theorem C10_rank_validation (env : Env) (code : GoString)
    (hne : ToUpper env (TrimSpace code) ≠ [])
    (hAlpha : (ToUpper env (TrimSpace code)).head? ∉ [some 'A', some 'J', some 'Q', some 'K']) :
    (cardValidator.ByCode env code = .done (.error .ErrCardCodeValueInvalid) ↔
      ¬ ∃ n : Int, Atoi (ToUpper env (TrimSpace code)).dropLast = some n ∧ 1 ≤ n ∧ n ≤ 10) ∧
    ((¬ ∃ n : Int, Atoi (ToUpper env (TrimSpace code)).dropLast = some n ∧ 1 ≤ n ∧ n ≤ 10) →
      (∀ l, (ToUpper env (TrimSpace code)).getLast? = some l → suitsCodeMap l = none) →
      cardValidator.ByCode env code = .done (.error .ErrCardCodeValueInvalid)) := by
  rw [ByCode_eq_resolveNormalized]
  have h := resolveNormalized_rank (ToUpper env (TrimSpace code)) hAlpha hne
  exact ⟨h, fun hr _ => h.mpr hr⟩

theorem Atoi_some_inj (s : GoString) (m : Int) (hs : Atoi s = some m) :
    ∀ n : Int, Atoi s = some n → n = m := by
  intro n hn
  rw [hs] at hn
  exact (Option.some.inj hn).symm

/-- C10 at the codes `X1S`, `11S`, `0S` of the tests and at `X1Z`, where the suit letter
is invalid too: all four fail with `ErrCardCodeValueInvalid`. -/
theorem C10_rank_validation_witness :
    cardValidator.ByCode sampleEnv "X1S".toList = .done (.error .ErrCardCodeValueInvalid) ∧
    cardValidator.ByCode sampleEnv "11S".toList = .done (.error .ErrCardCodeValueInvalid) ∧
    cardValidator.ByCode sampleEnv "0S".toList = .done (.error .ErrCardCodeValueInvalid) ∧
    cardValidator.ByCode sampleEnv " x1z ".toList = .done (.error .ErrCardCodeValueInvalid) :=
  ⟨(C10_rank_validation sampleEnv "X1S".toList (by decide) (by decide)).1.mpr
      (fun ⟨n, hn, _, _⟩ => by
        have h : Atoi (ToUpper sampleEnv (TrimSpace "X1S".toList)).dropLast = none := by decide
        rw [h] at hn
        cases hn),
    (C10_rank_validation sampleEnv "11S".toList (by decide) (by decide)).1.mpr
      (fun ⟨n, hn, _, h10⟩ => by
        have h := Atoi_some_inj _ 11 (by decide) n hn
        omega),
    (C10_rank_validation sampleEnv "0S".toList (by decide) (by decide)).1.mpr
      (fun ⟨n, hn, h1, _⟩ => by
        have h := Atoi_some_inj _ 0 (by decide) n hn
        omega),
    (C10_rank_validation sampleEnv " x1z ".toList (by decide) (by decide)).2
      (fun ⟨n, hn, _, _⟩ => by
        have h : Atoi (ToUpper sampleEnv (TrimSpace " x1z ".toList)).dropLast = none := by decide
        rw [h] at hn
        cases hn)
      (fun l hl => by
        have h : (ToUpper sampleEnv (TrimSpace " x1z ".toList)).getLast? = some 'Z' := by decide
        rw [h] at hl
        cases hl
        decide)⟩

/-! ## Suit validation -/

theorem suitsCodeMap_eq_none_iff (l : Char) :
    suitsCodeMap l = none ↔ some l ∉ [some 'C', some 'D', some 'H', some 'S'] := by
  simp only [List.mem_cons, Option.some.injEq, List.mem_singleton, List.not_mem_nil, or_false,
    not_or]
  unfold suitsCodeMap
  constructor
  · intro h
    by_cases h1 : l = 'C'
    · simp [h1] at h
    by_cases h2 : l = 'D'
    · simp [h2] at h
    by_cases h3 : l = 'H'
    · simp [h3] at h
    by_cases h4 : l = 'S'
    · simp [h4] at h
    exact ⟨h1, h2, h3, h4⟩
  · rintro ⟨h1, h2, h3, h4⟩
    simp [h1, h2, h3, h4]

theorem Suit_Code_of_suitsCodeMap (l : Char) (s : Suit) (h : suitsCodeMap l = some s) :
    ∃ c, Suit.Code s = .done c := by
  unfold suitsCodeMap at h
  split at h
  · cases h
    exact ⟨_, rfl⟩
  · split at h
    · cases h
      exact ⟨_, rfl⟩
    · split at h
      · cases h
        exact ⟨_, rfl⟩
      · split at h
        · cases h
          exact ⟨_, rfl⟩
        · cases h

theorem Value_Code_of_alphaValuesCodeMap (r : Char) (v : Value)
    (h : alphaValuesCodeMap r = some v) : ∃ c, Value.Code v = .done c := by
  unfold alphaValuesCodeMap at h
  split at h
  · cases h
    exact ⟨_, rfl⟩
  · split at h
    · cases h
      exact ⟨_, rfl⟩
    · split at h
      · cases h
        exact ⟨_, rfl⟩
      · split at h
        · cases h
          exact ⟨_, rfl⟩
        · cases h

theorem Value_Code_of_Atoi (v : Value) (k : Int) (h : Atoi v = some k) :
    Value.Code v = .done v := by
  simp [Value.Code, h]

theorem alphaValuesCodeMap_isSome (r : Char)
    (h : some r ∈ [some 'A', some 'J', some 'Q', some 'K']) :
    ∃ v, alphaValuesCodeMap r = some v := by
  simp only [List.mem_cons, Option.some.injEq, List.mem_singleton, List.not_mem_nil,
    or_false] at h
  rcases h with h | h | h | h <;> subst h <;> exact ⟨_, rfl⟩

/-- The rank check passes on a code that starts with A, J, Q or K or whose rank part is
an integer from 1 to 10. -/
theorem checkCodeValue_pass (card : Card)
    (hRank : card.Code.head? ∈ [some 'A', some 'J', some 'Q', some 'K'] ∨
      ∃ k : Int, Atoi card.Code.dropLast = some k ∧ 1 ≤ k ∧ k ≤ 10) :
    cardValidator.checkCodeValue card = (none, card) := by
  unfold cardValidator.checkCodeValue
  cases hc : card.Code with
  | nil => rfl
  | cons r0 rest =>
    simp only []
    cases ha : alphaValuesCodeMap r0 with
    | some v => rfl
    | none =>
      simp only []
      rcases hRank with h | ⟨k, hk, h1, h10⟩
      · rw [hc] at h
        obtain ⟨v, hv⟩ := alphaValuesCodeMap_isSome r0 h
        rw [hv] at ha
        cases ha
      · rw [hc] at hk
        have hn : ¬ (k > 10 ∨ k < 1) := by omega
        simp [hk, hn]

/-- The lookup on a code that passed both checks returns a card of the mapped suit. -/
theorem staticCardStorage_ByCode_ok (code : GoString) (l : Char) (s : Suit)
    (hl : code.getLast? = some l) (hs : suitsCodeMap l = some s)
    (hRank : code.head? ∈ [some 'A', some 'J', some 'Q', some 'K'] ∨
      ∃ k : Int, Atoi code.dropLast = some k ∧ 1 ≤ k ∧ k ≤ 10) :
    ∃ card, staticCardStorage.ByCode code = .done (.ok card) ∧ card.Suit = s := by
  obtain ⟨sc, hsc⟩ := Suit_Code_of_suitsCodeMap l s hs
  cases code with
  | nil => simp at hl
  | cons r0 rest =>
    cases ha : alphaValuesCodeMap r0 with
    | some v =>
      obtain ⟨vc, hvc⟩ := Value_Code_of_alphaValuesCodeMap r0 v ha
      refine ⟨⟨v, s, vc ++ sc⟩, ?_, rfl⟩
      simp [staticCardStorage.ByCode, hl, hs, ha, NewCard, hvc, hsc]
    | none =>
      rcases hRank with h | ⟨k, hk, _, _⟩
      · obtain ⟨v, hv⟩ := alphaValuesCodeMap_isSome r0 h
        rw [hv] at ha
        cases ha
      · have hvc := Value_Code_of_Atoi _ k hk
        refine ⟨⟨(r0 :: rest).dropLast, s, (r0 :: rest).dropLast ++ sc⟩, ?_, rfl⟩
        simp [staticCardStorage.ByCode, hl, hs, ha, NewCard, hvc, hsc]

theorem resolveNormalized_suit (code : GoString) (hne : code ≠ [])
    (hRank : code.head? ∈ [some 'A', some 'J', some 'Q', some 'K'] ∨
      ∃ k : Int, Atoi code.dropLast = some k ∧ 1 ≤ k ∧ k ≤ 10) :
    (resolveNormalized code = .done (.error .ErrCardCodeSuitInvalid) ↔
      code.getLast? ∉ [some 'C', some 'D', some 'H', some 'S']) ∧
    (code.getLast? ∈ [some 'C', some 'D', some 'H', some 'S'] →
      ∃ card, resolveNormalized code = .done (.ok card) ∧
        code.getLast?.bind suitsCodeMap = some card.Suit) := by
  have hv := checkCodeValue_pass { Value := [], Suit := [], Code := code } hRank
  cases hl : code.getLast? with
  | none =>
    rw [List.getLast?_eq_none_iff] at hl
    exact absurd hl hne
  | some l =>
    cases hs : suitsCodeMap l with
    | none =>
      have hnot := (suitsCodeMap_eq_none_iff l).mp hs
      have hr : resolveNormalized code = .done (.error .ErrCardCodeSuitInvalid) := by
        simp [resolveNormalized, runCardValFuncs, hv, cardValidator.checkCodeSuit, hl, hs]
      exact ⟨⟨fun _ => hnot, fun _ => hr⟩, fun h => absurd h hnot⟩
    | some s =>
      have hin : some l ∈ [some 'C', some 'D', some 'H', some 'S'] := by
        by_contra hcon
        rw [(suitsCodeMap_eq_none_iff l).mpr hcon] at hs
        cases hs
      obtain ⟨card, hcard, hsuit⟩ := staticCardStorage_ByCode_ok code l s hl hs hRank
      have hr : resolveNormalized code = .done (.ok card) := by
        simp [resolveNormalized, runCardValFuncs, hv, cardValidator.checkCodeSuit, hl, hs, hcard]
      refine ⟨⟨fun h => ?_, fun h => absurd hin h⟩, fun _ => ⟨card, hr, ?_⟩⟩
      · rw [hr] at h
        cases h
      · simp [hs, hsuit]

/-- C11: for a code whose normalized form is non-empty and passes the rank check (it
starts with A, J, Q or K, or its rank part is an integer from 1 to 10), `ByCode` fails with
`ErrCardCodeSuitInvalid` if and only if the last rune is none of C, D, H, S; otherwise it
succeeds and the card has the suit mapped to that letter: CLUBS, DIAMONDS, HEARTS,
SPADES. -/
theorem C11_suit_validation (env : Env) (code : GoString)
    (hne : ToUpper env (TrimSpace code) ≠ [])
    (hRank : (ToUpper env (TrimSpace code)).head? ∈ [some 'A', some 'J', some 'Q', some 'K'] ∨
      ∃ k : Int, Atoi (ToUpper env (TrimSpace code)).dropLast = some k ∧ 1 ≤ k ∧ k ≤ 10) :
    (cardValidator.ByCode env code = .done (.error .ErrCardCodeSuitInvalid) ↔
      (ToUpper env (TrimSpace code)).getLast? ∉ [some 'C', some 'D', some 'H', some 'S']) ∧
    ((ToUpper env (TrimSpace code)).getLast? ∈ [some 'C', some 'D', some 'H', some 'S'] →
      ∃ card, cardValidator.ByCode env code = .done (.ok card) ∧
        (ToUpper env (TrimSpace code)).getLast?.bind suitsCodeMap = some card.Suit) ∧
    suitsCodeMap 'C' = some "CLUBS".toList ∧ suitsCodeMap 'D' = some "DIAMONDS".toList ∧
    suitsCodeMap 'H' = some "HEARTS".toList ∧ suitsCodeMap 'S' = some "SPADES".toList := by
  rw [ByCode_eq_resolveNormalized]
  have h := resolveNormalized_suit (ToUpper env (TrimSpace code)) hne hRank
  exact ⟨h.1, h.2, rfl, rfl, rfl, rfl⟩

/-- C11 at the code `10X` of the test `invalid suit`, which fails with
`ErrCardCodeSuitInvalid`, and at `10h`, which gives a card of HEARTS. -/
theorem C11_suit_validation_witness :
    cardValidator.ByCode sampleEnv "10X".toList = .done (.error .ErrCardCodeSuitInvalid) ∧
    ∃ card, cardValidator.ByCode sampleEnv "10h".toList = .done (.ok card) ∧
      some "HEARTS".toList = some card.Suit :=
  ⟨(C11_suit_validation sampleEnv "10X".toList (by decide)
      (Or.inr ⟨10, by decide, by decide, by decide⟩)).1.mpr (by decide),
    (C11_suit_validation sampleEnv "10h".toList (by decide)
      (Or.inr ⟨10, by decide, by decide, by decide⟩)).2.1 (by decide)⟩

/-! ## Lookup and update -/

/-- C12: `ByUUID` fails with `ErrUUIDRequired` when the id is empty, with
`ErrUUIDInvalid` when it is non-empty and does not parse as a UUID, whatever the
repository holds, and with `ErrNotFound` when it parses and no deck is stored under it;
otherwise it returns the stored deck. -/
theorem C12_ByUUID_errors (env : Env) (repo : Repo) (uuid : GoString) :
    (uuid = [] → deckValidator.ByUUID env repo uuid = .done (.error .ErrUUIDRequired)) ∧
    (uuid ≠ [] → env.uuidParseOk uuid = false →
      deckValidator.ByUUID env repo uuid = .done (.error .ErrUUIDInvalid)) ∧
    (uuid ≠ [] → env.uuidParseOk uuid = true → repo uuid = none →
      deckValidator.ByUUID env repo uuid = .done (.error .ErrNotFound)) ∧
    (∀ deck, uuid ≠ [] → env.uuidParseOk uuid = true → repo uuid = some deck →
      deckValidator.ByUUID env repo uuid = .done (.ok deck)) := by
  refine ⟨?_, ?_, ?_, ?_⟩
  · intro h
    simp [deckValidator.ByUUID, runDeckValFuncs, deckValidator.requireUUID, h]
  · intro h hp
    simp [deckValidator.ByUUID, runDeckValFuncs, deckValidator.requireUUID,
      deckValidator.isValidUUID, h, hp]
  · intro h hp hr
    simp [deckValidator.ByUUID, runDeckValFuncs, deckValidator.requireUUID,
      deckValidator.isValidUUID, deckMemory.ByUUID, h, hp, hr]
  · intro deck h hp hr
    simp [deckValidator.ByUUID, runDeckValFuncs, deckValidator.requireUUID,
      deckValidator.isValidUUID, deckMemory.ByUUID, h, hp, hr]

/-- C12 on the repository that holds the deck of 52 cards under its id: the empty id,
the id `abcd` of the test, an unused UUID and the stored id. -/
theorem C12_ByUUID_errors_witness :
    deckValidator.ByUUID sampleEnv (NewDeckService.set sampleDeck.UUID sampleDeck) [] =
      .done (.error .ErrUUIDRequired) ∧
    deckValidator.ByUUID sampleEnv (NewDeckService.set sampleDeck.UUID sampleDeck)
      "abcd".toList = .done (.error .ErrUUIDInvalid) ∧
    deckValidator.ByUUID sampleEnv (NewDeckService.set sampleDeck.UUID sampleDeck)
      "00000000-0000-0000-0000-000000000000".toList = .done (.error .ErrNotFound) ∧
    deckValidator.ByUUID sampleEnv (NewDeckService.set sampleDeck.UUID sampleDeck)
      sampleDeck.UUID = .done (.ok sampleDeck) :=
  ⟨(C12_ByUUID_errors sampleEnv _ []).1 rfl,
    (C12_ByUUID_errors sampleEnv _ "abcd".toList).2.1 (by decide) (by decide),
    (C12_ByUUID_errors sampleEnv _ "00000000-0000-0000-0000-000000000000".toList).2.2.1
      (by decide) (by decide) (by decide),
    (C12_ByUUID_errors sampleEnv _ sampleDeck.UUID).2.2.2 sampleDeck (by decide) (by decide)
      (by decide)⟩

theorem Update_of_empty_id (repo : Repo) (deck : Deck) (h : deck.UUID = []) :
    deckValidator.Update repo deck = .done (some .ErrUUIDRequired, deck, repo) := by
  simp [deckValidator.Update, runDeckValFuncs, deckValidator.requireUUID, h]

/-- C13: `Update` fails with `ErrUUIDRequired` if and only if the id of the deck is
empty, and then leaves the deck and the repository as they were; otherwise it returns no
error, sets `Remaining` to `len(Cards)`, changes no other field, and stores the deck under
its id, leaving the other keys alone. -/
theorem C13_Update (repo : Repo) (deck : Deck) :
    ((∃ after stored, deckValidator.Update repo deck =
        .done (some .ErrUUIDRequired, after, stored)) ↔ deck.UUID = []) ∧
    (deck.UUID = [] →
      deckValidator.Update repo deck = .done (some .ErrUUIDRequired, deck, repo)) ∧
    (deck.UUID ≠ [] →
      deckValidator.Update repo deck =
        .done (none, { deck with Remaining := len deck.Cards },
          repo.set deck.UUID { deck with Remaining := len deck.Cards }) ∧
      (repo.set deck.UUID { deck with Remaining := len deck.Cards }) deck.UUID =
        some { deck with Remaining := len deck.Cards } ∧
      ∀ key, key ≠ deck.UUID →
        (repo.set deck.UUID { deck with Remaining := len deck.Cards }) key = repo key) := by
  refine ⟨⟨?_, ?_⟩, Update_of_empty_id repo deck, ?_⟩
  · rintro ⟨after, stored, h⟩
    by_contra hne
    rw [Update_of_id repo deck hne] at h
    simp at h
  · intro h
    exact ⟨deck, repo, Update_of_empty_id repo deck h⟩
  · intro hne
    refine ⟨Update_of_id repo deck hne, by simp [Repo.set], ?_⟩
    intro key hkey
    simp [Repo.set, hkey]

/-- C13 at the cases of `Test_deckValidator_Update`: the empty deck `Deck{}` fails and
stays as it was; a deck with an id and the first five cards gets `Remaining == 5`. -/
theorem C13_Update_witness :
    deckValidator.Update NewDeckService
        { UUID := [], Shuffled := false, Remaining := 0, Cards := none, CardCodes := [],
          Opened := false } =
      .done (some .ErrUUIDRequired,
        { UUID := [], Shuffled := false, Remaining := 0, Cards := none, CardCodes := [],
          Opened := false }, NewDeckService) ∧
    deckValidator.Update NewDeckService
        { sampleDeck with Remaining := 0, Cards := some (allCards.take 5) } =
      .done (none, { sampleDeck with Remaining := 5, Cards := some (allCards.take 5) },
        NewDeckService.set sampleDeck.UUID
          { sampleDeck with Remaining := 5, Cards := some (allCards.take 5) }) :=
  ⟨(C13_Update NewDeckService _).2.1 rfl,
    ((C13_Update NewDeckService
      { sampleDeck with Remaining := 0, Cards := some (allCards.take 5) }).2.2
        (by decide)).1⟩

/-! ## Create, step by step -/

/-- What the five steps before `shuffle` leave, case by case. -/
theorem createSteps_eq (env : Env) (deck : Deck) :
    runDeckValFuncs deck (createSteps env) =
      if env.uuidParseOk (idAfterCreate env deck) = true then
        if deck.CardCodes ≠ [] then
          match cardService.ByCodesStr env deck.CardCodes with
          | .panicked => .panicked
          | .done (.error e) => .done (some e, { deck with UUID := idAfterCreate env deck })
          | .done (.ok cards) =>
            .done (none, { deck with UUID := idAfterCreate env deck, Remaining := len cards,
                                     Cards := cards, CardCodes := [] })
        else
          match deck.Cards with
          | none =>
            .done (none, { deck with UUID := idAfterCreate env deck, Remaining := 52,
                                     Cards := some allCards })
          | some l =>
            .done (none, { deck with UUID := idAfterCreate env deck,
                                     Remaining := len (some l) })
      else .done (some .ErrUUIDInvalid, { deck with UUID := idAfterCreate env deck }) := by
  by_cases hv : env.uuidParseOk (idAfterCreate env deck) = true
  · have hId : deck.UUID = [] ∨ env.uuidParseOk deck.UUID = true := by
      by_cases hu : deck.UUID = []
      · exact Or.inl hu
      · right
        simpa [idAfterCreate, hu] using hv
    by_cases hc : deck.CardCodes = []
    · cases hCards : deck.Cards with
      | none =>
        rw [createSteps_fill env deck hId hc hCards]
        simp [hv, hc, hCards]
      | some l =>
        simp only [hv, hc, ne_eq, not_true_eq_false, if_true, if_false]
        unfold idAfterCreate at hv ⊢
        by_cases hu : deck.UUID = []
        · simp only [hu, if_true] at hv
          simp [createSteps, runDeckValFuncs, deckValidator.setUUIDIfUnset,
            deckValidator.isValidUUID, deckValidator.setCardsByCodes,
            deckValidator.setCardsIfEmpty, deckValidator.setRemaining, hu, hv, hc, hCards]
        · simp only [hu, if_false] at hv
          simp [createSteps, runDeckValFuncs, deckValidator.setUUIDIfUnset,
            deckValidator.isValidUUID, deckValidator.setCardsByCodes,
            deckValidator.setCardsIfEmpty, deckValidator.setRemaining, hu, hv, hc, hCards]
    · simp only [hv, hc, ne_eq, not_false_eq_true, if_true]
      cases hBy : cardService.ByCodesStr env deck.CardCodes with
      | panicked =>
        unfold idAfterCreate at hv
        by_cases hu : deck.UUID = []
        · simp only [hu, if_true] at hv
          simp [createSteps, runDeckValFuncs, deckValidator.setUUIDIfUnset,
            deckValidator.isValidUUID, deckValidator.setCardsByCodes, hu, hv, hc, hBy]
        · simp only [hu, if_false] at hv
          simp [createSteps, runDeckValFuncs, deckValidator.setUUIDIfUnset,
            deckValidator.isValidUUID, deckValidator.setCardsByCodes, hu, hv, hc, hBy]
      | done r =>
        cases r with
        | error e =>
          unfold idAfterCreate at hv ⊢
          by_cases hu : deck.UUID = []
          · simp only [hu, if_true] at hv
            simp [createSteps, runDeckValFuncs, deckValidator.setUUIDIfUnset,
              deckValidator.isValidUUID, deckValidator.setCardsByCodes, hu, hv, hc, hBy]
          · simp only [hu, if_false] at hv
            simp [createSteps, runDeckValFuncs, deckValidator.setUUIDIfUnset,
              deckValidator.isValidUUID, deckValidator.setCardsByCodes, hu, hv, hc, hBy]
        | ok cards =>
          rw [createSteps_codes env deck cards hId hc hBy]
  · simp only [hv, if_false]
    unfold idAfterCreate at hv ⊢
    by_cases hu : deck.UUID = []
    · simp only [hu, if_true] at hv
      simp [createSteps, runDeckValFuncs, deckValidator.setUUIDIfUnset,
        deckValidator.isValidUUID, hu, hv]
    · simp only [hu, if_false] at hv
      simp [createSteps, runDeckValFuncs, deckValidator.setUUIDIfUnset,
        deckValidator.isValidUUID, hu, hv]

/-- What a successful run of the five steps has done to the id and the flags. -/
theorem createSteps_success (env : Env) (deck d : Deck)
    (h : runDeckValFuncs deck (createSteps env) = .done (none, d)) :
    d.UUID = idAfterCreate env deck ∧ env.uuidParseOk d.UUID = true ∧
      d.Opened = deck.Opened ∧ d.Shuffled = deck.Shuffled := by
  rw [createSteps_eq] at h
  by_cases hv : env.uuidParseOk (idAfterCreate env deck) = true
  · simp only [hv, if_true] at h
    by_cases hc : deck.CardCodes = []
    · simp only [hc, ne_eq, not_true_eq_false, if_false] at h
      cases hCards : deck.Cards with
      | none =>
        simp only [hCards, Run.done.injEq, Prod.mk.injEq, true_and] at h
        subst h
        exact ⟨rfl, hv, rfl, rfl⟩
      | some l =>
        simp only [hCards, Run.done.injEq, Prod.mk.injEq, true_and] at h
        subst h
        exact ⟨rfl, hv, rfl, rfl⟩
    · simp only [hc, ne_eq, not_false_eq_true, if_true] at h
      cases hBy : cardService.ByCodesStr env deck.CardCodes with
      | panicked =>
        rw [hBy] at h
        simp at h
      | done r =>
        cases r with
        | error e =>
          rw [hBy] at h
          simp at h
        | ok cards =>
          rw [hBy] at h
          simp only [Run.done.injEq, Prod.mk.injEq, true_and] at h
          subst h
          exact ⟨rfl, hv, rfl, rfl⟩
  · simp only [hv, if_false] at h
    simp at h

/-- What `shuffle` leaves on a deck with `Remaining == len(Cards)`: the same deck but for
the order of its cards. -/
theorem shuffle_cases (env : Env) (d : Deck) (hR : d.Remaining = len d.Cards) :
    ∃ d2, deckValidator.shuffle env d = .done (none, d2) ∧ d2.UUID = d.UUID ∧
      d2.Opened = d.Opened ∧ d2.Shuffled = d.Shuffled ∧ d2.Remaining = len d2.Cards ∧
      d2.CardCodes = d.CardCodes ∧ (elems d2.Cards).Perm (elems d.Cards) ∧
      (d.Shuffled = false → d2 = d) := by
  by_cases hS : d.Shuffled = true
  · obtain ⟨l, hl, hperm⟩ := shuffle_of_shuffled env d hS hR
    refine ⟨{ d with Cards := some l }, hl, rfl, rfl, rfl, ?_, rfl, hperm, ?_⟩
    · show d.Remaining = len (some l)
      rw [hR]
      simp only [len, elems, Option.getD_some]
      rw [hperm.length_eq]
      rfl
    · intro hf
      rw [hf] at hS
      cases hS
  · have hS2 : d.Shuffled = false := by simpa using hS
    exact ⟨d, shuffle_of_not_shuffled env d hS2, rfl, rfl, rfl, hR, rfl, List.Perm.refl _,
      fun _ => rfl⟩

/-- The outcomes of `Create`: a panic, an error with nothing stored, or a deck stored
under its valid id with `Remaining == len(Cards)`. -/
theorem Create_cases (env : Env) (repo : Repo) (deck : Deck) :
    deckValidator.Create env repo deck = .panicked ∨
    (∃ e d, deckValidator.Create env repo deck = .done (some e, d, repo)) ∨
    (∃ d1 d, deckValidator.Create env repo deck = .done (none, d, repo.set d.UUID d) ∧
      runDeckValFuncs deck (createSteps env) = .done (none, d1) ∧
      d.UUID = idAfterCreate env deck ∧ env.uuidParseOk d.UUID = true ∧
      d.Opened = deck.Opened ∧ d.Remaining = len d.Cards ∧ d.CardCodes = d1.CardCodes ∧
      (elems d.Cards).Perm (elems d1.Cards) ∧ (deck.Shuffled = false → d = d1)) := by
  rw [Create_eq]
  cases hp : runDeckValFuncs deck (createSteps env) with
  | panicked => exact Or.inl rfl
  | done r =>
    obtain ⟨e, d1⟩ := r
    cases e with
    | some e => exact Or.inr (Or.inl ⟨e, d1, rfl⟩)
    | none =>
      obtain ⟨h1, h2, h3, h4⟩ := createSteps_success env deck d1 hp
      have hR := createSteps_Remaining env deck d1 hp
      obtain ⟨d2, hs, g1, g2, g3, g4, g5, g6, g7⟩ := shuffle_cases env d1 hR
      refine Or.inr (Or.inr ⟨d1, d2, ?_, rfl, ?_, ?_, ?_, g4, g5, g6, ?_⟩)
      · simp only [hs]
      · rw [g1, h1]
      · rw [g1]
        exact h2
      · rw [g2, h3]
      · intro hf
        exact g7 (by rw [h4, hf])

theorem uuid_ne_nil_of_parseOk (env : Env) (uuid : GoString) (h : env.uuidParseOk uuid = true) :
    uuid ≠ [] := by
  intro hn
  rw [hn, env.uuidParse_empty] at h
  cases h

theorem ByUUID_of_stored (env : Env) (repo : Repo) (deck : Deck)
    (hv : env.uuidParseOk deck.UUID = true) :
    deckValidator.ByUUID env (repo.set deck.UUID deck) deck.UUID = .done (.ok deck) := by
  have hne := uuid_ne_nil_of_parseOk env deck.UUID hv
  simp [deckValidator.ByUUID, runDeckValFuncs, deckValidator.requireUUID,
    deckValidator.isValidUUID, deckMemory.ByUUID, hne, hv, Repo.set]

theorem ByUUID_of_absent (env : Env) (repo : Repo) (uuid : GoString)
    (hv : env.uuidParseOk uuid = true) (hr : repo uuid = none) :
    deckValidator.ByUUID env repo uuid = .done (.error .ErrNotFound) := by
  have hne := uuid_ne_nil_of_parseOk env uuid hv
  simp [deckValidator.ByUUID, runDeckValFuncs, deckValidator.requireUUID,
    deckValidator.isValidUUID, deckMemory.ByUUID, hne, hv, hr]

/-! ## Open, and the round trip through the repository -/

/-- C16: on a deck with a syntactically valid id, `Open` succeeds, sets `Opened` to true
without changing `Cards`, `Shuffled` or the id, and stores the deck; `ByUUID` of that id
then returns a deck with `Opened == true` and the same cards, and `Draw` on it fails with
`ErrDeckOpened` for every count, leaving deck and repository as they were. -/
theorem C16_Open_then_Draw (env : Env) (repo : Repo) (deck : Deck)
    (hValid : env.uuidParseOk deck.UUID = true) :
    ∃ (after : Deck) (stored : Repo),
      deckService.Open repo deck = .done (none, after, stored) ∧
      after.Opened = true ∧ after.Cards = deck.Cards ∧ after.Shuffled = deck.Shuffled ∧
      after.UUID = deck.UUID ∧ stored deck.UUID = some after ∧
      (∀ (count : Int) (r : Repo),
        deckService.Draw r after count = .done (.error .ErrDeckOpened, after, r)) ∧
      ∃ found, deckValidator.ByUUID env stored deck.UUID = .done (.ok found) ∧
        found.Opened = true ∧ found.Cards = deck.Cards ∧
        ∀ (count : Int) (r : Repo),
          deckService.Draw r found count = .done (.error .ErrDeckOpened, found, r) := by
  have hne := uuid_ne_nil_of_parseOk env deck.UUID hValid
  have hdraw : ∀ (count : Int) (r : Repo),
      deckService.Draw r { deck with Opened := true, Remaining := len deck.Cards } count =
        .done (.error .ErrDeckOpened,
          { deck with Opened := true, Remaining := len deck.Cards }, r) := by
    intro count r
    simp [deckService.Draw]
  refine ⟨{ deck with Opened := true, Remaining := len deck.Cards },
    repo.set deck.UUID { deck with Opened := true, Remaining := len deck.Cards },
    ?_, rfl, rfl, rfl, rfl, ?_, hdraw, ?_⟩
  · unfold deckService.Open
    rw [Update_of_id repo _ (by exact hne)]
  · simp [Repo.set]
  · refine ⟨{ deck with Opened := true, Remaining := len deck.Cards }, ?_, rfl, rfl, hdraw⟩
    exact ByUUID_of_stored env repo { deck with Opened := true, Remaining := len deck.Cards }
      hValid

/-- C16 at the deck of 52 cards: after `Open`, drawing 3 cards from the deck that
`ByUUID` returns fails with `ErrDeckOpened`. -/
theorem C16_Open_then_Draw_witness :
    sampleEnv.uuidParseOk sampleDeck.UUID = true ∧
    ∃ (after : Deck) (stored : Repo),
      deckService.Open NewDeckService sampleDeck = .done (none, after, stored) ∧
      after.Opened = true ∧ after.Cards = some allCards ∧
      ∃ found, deckValidator.ByUUID sampleEnv stored sampleDeck.UUID = .done (.ok found) ∧
        found.Opened = true ∧
        deckService.Draw stored found 3 = .done (.error .ErrDeckOpened, found, stored) := by
  refine ⟨by decide, ?_⟩
  obtain ⟨after, stored, h1, h2, h3, _, _, _, _, found, h8, h9, _, h11⟩ :=
    C16_Open_then_Draw sampleEnv NewDeckService sampleDeck (by decide)
  exact ⟨after, stored, h1, h2, h3, found, h8, h9, h11 3 stored⟩

/-- C17: when `Create(deck)` succeeds, `ByUUID(deck.UUID)` right after it succeeds and
returns the deck as `Create` left it, equal in every field; the same holds for `Update` on
a deck with a valid id, which always succeeds; and `ByUUID` of another valid id under
which nothing was stored fails with `ErrNotFound`. -/
theorem C17_store_fetch_roundtrip (env : Env) (repo : Repo) (deck : Deck) :
    (∀ (after : Deck) (stored : Repo),
      deckValidator.Create env repo deck = .done (none, after, stored) →
      deckValidator.ByUUID env stored after.UUID = .done (.ok after) ∧
      ∀ other, other ≠ after.UUID → env.uuidParseOk other = true → repo other = none →
        deckValidator.ByUUID env stored other = .done (.error .ErrNotFound)) ∧
    (env.uuidParseOk deck.UUID = true →
      ∃ (after : Deck) (stored : Repo),
        deckValidator.Update repo deck = .done (none, after, stored) ∧
        deckValidator.ByUUID env stored after.UUID = .done (.ok after) ∧
        ∀ other, other ≠ after.UUID → env.uuidParseOk other = true → repo other = none →
          deckValidator.ByUUID env stored other = .done (.error .ErrNotFound)) := by
  have habsent : ∀ (d : Deck) (other : GoString), other ≠ d.UUID →
      env.uuidParseOk other = true → repo other = none →
      deckValidator.ByUUID env (repo.set d.UUID d) other = .done (.error .ErrNotFound) := by
    intro d other hne hv hr
    apply ByUUID_of_absent env _ other hv
    simp [Repo.set, hne, hr]
  constructor
  · intro after stored h
    rcases Create_cases env repo deck with hp | ⟨e, d, he⟩ | ⟨d1, d, hd, _, _, hv, _⟩
    · rw [hp] at h
      cases h
    · rw [he] at h
      simp at h
    · rw [hd] at h
      simp only [Run.done.injEq, Prod.mk.injEq, true_and] at h
      obtain ⟨h1, h2⟩ := h
      subst h1
      subst h2
      exact ⟨ByUUID_of_stored env repo d hv, habsent d⟩
  · intro hv
    have hne := uuid_ne_nil_of_parseOk env deck.UUID hv
    refine ⟨{ deck with Remaining := len deck.Cards },
      repo.set deck.UUID { deck with Remaining := len deck.Cards },
      Update_of_id repo deck hne, ?_, ?_⟩
    · exact ByUUID_of_stored env repo { deck with Remaining := len deck.Cards } hv
    · exact habsent { deck with Remaining := len deck.Cards }

theorem Create_fill (env : Env) (repo : Repo) (deck : Deck)
    (hId : deck.UUID = [] ∨ env.uuidParseOk deck.UUID = true)
    (hShuffled : deck.Shuffled = false) (hCodes : deck.CardCodes = [])
    (hCards : deck.Cards = none) :
    deckValidator.Create env repo deck =
      .done (none,
        { deck with UUID := idAfterCreate env deck, Remaining := 52, Cards := some allCards },
        repo.set (idAfterCreate env deck)
          { deck with UUID := idAfterCreate env deck, Remaining := 52,
                      Cards := some allCards }) := by
  rw [Create_eq, createSteps_fill env deck hId hCodes hCards]
  simp only []
  rw [shuffle_of_not_shuffled env _ (by exact hShuffled)]

/-- C17 at `Deck{UUID: id}`, as `testDeckStorage` runs it: `Create`, then `ByUUID` of
the id returns the created deck and `ByUUID` of an unused UUID fails with
`ErrNotFound`. -/
theorem C17_store_fetch_roundtrip_witness :
    ∃ (after : Deck) (stored : Repo),
      deckValidator.Create sampleEnv NewDeckService
        { sampleDeck with Remaining := 0, Cards := none } = .done (none, after, stored) ∧
      after.UUID = sampleDeck.UUID ∧
      deckValidator.ByUUID sampleEnv stored after.UUID = .done (.ok after) ∧
      deckValidator.ByUUID sampleEnv stored "00000000-0000-0000-0000-000000000000".toList =
        .done (.error .ErrNotFound) := by
  have h1 := Create_fill sampleEnv NewDeckService
    { sampleDeck with Remaining := 0, Cards := none } (Or.inr (by decide)) rfl rfl rfl
  have h := (C17_store_fetch_roundtrip sampleEnv NewDeckService
    { sampleDeck with Remaining := 0, Cards := none }).1 _ _ h1
  exact ⟨_, _, h1, by decide, h.1, h.2 _ (by decide) (by decide) rfl⟩

/-- C18: on a deck whose id is non-empty and does not parse as a UUID, `Create` fails
with `ErrUUIDInvalid`, leaves the deck exactly as it was (no cards filled in, `Remaining`
not set, `CardCodes` not consumed), and stores nothing. -/
theorem C18_Create_invalid_uuid (env : Env) (repo : Repo) (deck : Deck)
    (hne : deck.UUID ≠ []) (hInvalid : env.uuidParseOk deck.UUID = false) :
    deckValidator.Create env repo deck = .done (some .ErrUUIDInvalid, deck, repo) := by
  have hid : idAfterCreate env deck = deck.UUID := by simp [idAfterCreate, hne]
  rw [Create_eq, createSteps_eq, hid]
  simp only [hInvalid, Bool.false_eq_true, if_false]

/-- C18 at `Deck{UUID: "invalid"}` of the test `invalid uuid`, here with codes that are
left unconsumed. -/
theorem C18_Create_invalid_uuid_witness :
    "invalid".toList ≠ [] ∧ sampleEnv.uuidParseOk "invalid".toList = false ∧
    deckValidator.Create sampleEnv NewDeckService
        { UUID := "invalid".toList, Shuffled := true, Remaining := 0, Cards := none,
          CardCodes := "AS,10D".toList, Opened := false } =
      .done (some .ErrUUIDInvalid,
        { UUID := "invalid".toList, Shuffled := true, Remaining := 0, Cards := none,
          CardCodes := "AS,10D".toList, Opened := false }, NewDeckService) :=
  ⟨by decide, by decide, C18_Create_invalid_uuid sampleEnv NewDeckService _ (by decide) (by decide)⟩

/-! ## Sequences of calls -/

/-- The outcomes of `Draw`: a panic, an error with nothing stored, or the deck stored
under its non-empty id with `Remaining == len(Cards)` and `Opened` still false. -/
theorem Draw_cases (repo : Repo) (deck : Deck) (count : Int) :
    deckService.Draw repo deck count = .panicked ∨
    (∃ e d, deckService.Draw repo deck count = .done (.error e, d, repo)) ∨
    (∃ cards d, deckService.Draw repo deck count = .done (.ok cards, d, repo.set d.UUID d) ∧
      d.UUID = deck.UUID ∧ d.UUID ≠ [] ∧ d.Remaining = len d.Cards ∧
      d.Opened = false ∧ deck.Opened = false) := by
  unfold deckService.Draw
  by_cases hO : deck.Opened = true
  · rw [if_pos hO]
    exact Or.inr (Or.inl ⟨_, _, rfl⟩)
  · have hO2 : deck.Opened = false := by simpa using hO
    rw [if_neg hO]
    by_cases hc : count > deck.Remaining
    · rw [if_pos hc]
      exact Or.inr (Or.inl ⟨_, _, rfl⟩)
    · rw [if_neg hc]
      by_cases hs : count < 0 ∨ len deck.Cards < count
      · left
        simp only [sliceTo, if_pos hs]
      · simp only [sliceTo, sliceFrom, if_neg hs]
        by_cases hu : deck.UUID = []
        · rw [Update_of_empty_id repo _ (by exact hu)]
          exact Or.inr (Or.inl ⟨_, _, rfl⟩)
        · rw [Update_of_id repo _ (by exact hu)]
          exact Or.inr (Or.inr ⟨_, _, rfl, rfl, hu, rfl, hO2, hO2⟩)

/-- Storing a deck under its own non-empty id, with `Remaining == len(Cards)`, keeps
the repository invariant. -/
theorem set_invariant (repo : Repo) (d : Deck)
    (hinv : ∀ key x, repo key = some x → x.Remaining = len x.Cards ∧ x.UUID = key ∧ key ≠ [])
    (hR : d.Remaining = len d.Cards) (hne : d.UUID ≠ []) :
    ∀ key x, repo.set d.UUID d key = some x →
      x.Remaining = len x.Cards ∧ x.UUID = key ∧ key ≠ [] := by
  intro key x hx
  unfold Repo.set at hx
  by_cases hk : key = d.UUID
  · simp only [hk, if_true, Option.some.injEq] at hx
    subst hx
    rw [hk]
    exact ⟨hR, rfl, hne⟩
  · simp only [hk, if_false] at hx
    exact hinv key x hx

/-- Every call keeps the repository invariant. -/
theorem applyCall_invariant (repo : Repo) (call : Call)
    (hinv : ∀ key x, repo key = some x → x.Remaining = len x.Cards ∧ x.UUID = key ∧ key ≠ []) :
    ∀ key x, applyCall repo call key = some x →
      x.Remaining = len x.Cards ∧ x.UUID = key ∧ key ≠ [] := by
  cases call with
  | Create env deck =>
    simp only [applyCall]
    rcases Create_cases env repo deck with h | ⟨e, d, h⟩ | ⟨d1, d, h, _, _, hv, _, hR, _⟩
    · rw [h]
      exact hinv
    · rw [h]
      exact hinv
    · rw [h]
      exact set_invariant repo d hinv hR (uuid_ne_nil_of_parseOk env d.UUID hv)
  | Update deck =>
    simp only [applyCall]
    by_cases hu : deck.UUID = []
    · rw [Update_of_empty_id repo deck hu]
      exact hinv
    · rw [Update_of_id repo deck hu]
      exact set_invariant repo { deck with Remaining := len deck.Cards } hinv rfl hu
  | Open deck =>
    simp only [applyCall, deckService.Open]
    by_cases hu : deck.UUID = []
    · rw [Update_of_empty_id repo _ (by exact hu)]
      exact hinv
    · rw [Update_of_id repo _ (by exact hu)]
      exact set_invariant repo { deck with Opened := true, Remaining := len deck.Cards } hinv
        rfl hu
  | Draw deck count =>
    simp only [applyCall]
    rcases Draw_cases repo deck count with h | ⟨e, d, h⟩ | ⟨cards, d, h, _, hne, hR, _⟩
    · rw [h]
      exact hinv
    · rw [h]
      exact hinv
    · rw [h]
      exact set_invariant repo d hinv hR hne

theorem runCalls_invariant (calls : List Call) (repo : Repo)
    (hinv : ∀ key x, repo key = some x → x.Remaining = len x.Cards ∧ x.UUID = key ∧ key ≠ []) :
    ∀ key x, runCalls repo calls key = some x →
      x.Remaining = len x.Cards ∧ x.UUID = key ∧ key ≠ [] := by
  induction calls generalizing repo with
  | nil => exact hinv
  | cons c cs ih => exact ih (applyCall repo c) (applyCall_invariant repo c hinv)

/-- C14: starting from the empty repository of `NewDeckService`, after any sequence of
`Create`, `Update`, `Open` and `Draw` calls, successful or not, on any decks, every deck
the repository holds has `Remaining == len(Cards)` and is stored under a key equal to its
own id, which is not empty. -/
theorem C14_repository_invariant (calls : List Call) (key : GoString) (deck : Deck)
    (hStored : runCalls NewDeckService calls key = some deck) :
    deck.Remaining = len deck.Cards ∧ deck.UUID = key ∧ key ≠ [] :=
  runCalls_invariant calls NewDeckService (fun _ _ h => by cases h) key deck hStored

/-- C14 after a shuffled `Create`, a `Draw` of 5 cards with a stale `Remaining`, an
`Update` without id (which fails) and an `Open`: the deck held under the id has 47 cards
and `Remaining == 47`. -/
theorem C14_repository_invariant_witness :
    ∃ deck,
      runCalls NewDeckService
        [.Create sampleEnv { sampleDeck with Shuffled := true, Remaining := 0, Cards := none },
         .Draw { sampleDeck with Remaining := 99 } 5,
         .Update { sampleDeck with UUID := [] },
         .Open { sampleDeck with Remaining := 7, Cards := some (allCards.drop 5) }]
        sampleDeck.UUID = some deck ∧
      deck.Remaining = 47 ∧
      deck.Remaining = len deck.Cards ∧ deck.UUID = sampleDeck.UUID ∧ sampleDeck.UUID ≠ [] := by
  cases h : runCalls NewDeckService
      [.Create sampleEnv { sampleDeck with Shuffled := true, Remaining := 0, Cards := none },
       .Draw { sampleDeck with Remaining := 99 } 5,
       .Update { sampleDeck with UUID := [] },
       .Open { sampleDeck with Remaining := 7, Cards := some (allCards.drop 5) }]
      sampleDeck.UUID with
  | none => exact absurd h (by decide)
  | some deck =>
    have h47 : (runCalls NewDeckService
      [.Create sampleEnv { sampleDeck with Shuffled := true, Remaining := 0, Cards := none },
       .Draw { sampleDeck with Remaining := 99 } 5,
       .Update { sampleDeck with UUID := [] },
       .Open { sampleDeck with Remaining := 7, Cards := some (allCards.drop 5) }]
      sampleDeck.UUID).map Deck.Remaining = some 47 := by decide
    rw [h] at h47
    exact ⟨deck, rfl, by simpa using h47, C14_repository_invariant _ _ deck h⟩

/-! ## The `Opened` flag across calls -/

theorem set_opened (repo : Repo) (id : GoString) (d x : Deck)
    (hStored : repo id = some d) (hOpened : d.Opened = true)
    (hx : x.UUID = id → x.Opened = true) :
    ∃ d2, repo.set x.UUID x id = some d2 ∧ d2.Opened = true := by
  unfold Repo.set
  by_cases hk : id = x.UUID
  · exact ⟨x, by simp [hk], hx hk.symm⟩
  · exact ⟨d, by simp [hk, hStored], hOpened⟩

/-- A call that does not pass an unopened deck for the id leaves an opened deck under
it. -/
theorem applyCall_opened (repo : Repo) (call : Call) (id : GoString) (d : Deck)
    (hStored : repo id = some d) (hOpened : d.Opened = true)
    (hCall : passesUnopened id call = false) :
    ∃ d2, applyCall repo call id = some d2 ∧ d2.Opened = true := by
  cases call with
  | Create env deck =>
    simp only [applyCall]
    rcases Create_cases env repo deck with h | ⟨e, x, h⟩ | ⟨d1, x, h, _, hid, _, hO, _⟩
    · rw [h]
      exact ⟨d, hStored, hOpened⟩
    · rw [h]
      exact ⟨d, hStored, hOpened⟩
    · rw [h]
      apply set_opened repo id d x hStored hOpened
      intro hx
      rw [hid] at hx
      rw [hO]
      simpa [passesUnopened, hx] using hCall
  | Update deck =>
    simp only [applyCall]
    by_cases hu : deck.UUID = []
    · rw [Update_of_empty_id repo deck hu]
      exact ⟨d, hStored, hOpened⟩
    · rw [Update_of_id repo deck hu]
      apply set_opened repo id d { deck with Remaining := len deck.Cards } hStored hOpened
      intro hx
      have hx2 : deck.UUID = id := hx
      show deck.Opened = true
      simpa [passesUnopened, hx2] using hCall
  | Open deck =>
    simp only [applyCall, deckService.Open]
    by_cases hu : deck.UUID = []
    · rw [Update_of_empty_id repo _ (by exact hu)]
      exact ⟨d, hStored, hOpened⟩
    · rw [Update_of_id repo _ (by exact hu)]
      exact set_opened repo id d { deck with Opened := true, Remaining := len deck.Cards }
        hStored hOpened (fun _ => rfl)
  | Draw deck count =>
    simp only [applyCall]
    rcases Draw_cases repo deck count with h | ⟨e, x, h⟩ | ⟨cards, x, h, hid, _, _, _, hO⟩
    · rw [h]
      exact ⟨d, hStored, hOpened⟩
    · rw [h]
      exact ⟨d, hStored, hOpened⟩
    · rw [h]
      apply set_opened repo id d x hStored hOpened
      intro hx
      rw [hid] at hx
      simp [passesUnopened, hx, hO] at hCall

/-- C15 as the code has it: once the deck stored under an id has `Opened == true`, it
stays so through every sequence of `Create`, `Update`, `Open` and `Draw` calls none of
which passes, for that id, a deck with `Opened == false`. -/
theorem C15_Opened_stays (calls : List Call) (repo : Repo) (id : GoString) (deck : Deck)
    (hStored : repo id = some deck) (hOpened : deck.Opened = true)
    (hCalls : ∀ call ∈ calls, passesUnopened id call = false) :
    ∃ later, runCalls repo calls id = some later ∧ later.Opened = true := by
  induction calls generalizing repo deck with
  | nil => exact ⟨deck, hStored, hOpened⟩
  | cons c cs ih =>
    obtain ⟨d2, h2, hO2⟩ := applyCall_opened repo c id deck hStored hOpened
      (hCalls c (List.mem_cons_self c cs))
    exact ih (applyCall repo c) d2 h2 hO2 (fun call hc => hCalls call (List.mem_cons_of_mem c hc))

/-- C15 as the code has it, on the repository with the opened deck of 52 cards: a
`Draw` on it, an `Update` of it, an `Open` of a stale copy and a `Create` of another deck
leave it opened. -/
theorem C15_Opened_stays_witness :
    (NewDeckService.set sampleDeck.UUID { sampleDeck with Opened := true }) sampleDeck.UUID =
      some { sampleDeck with Opened := true } ∧
    ∃ later,
      runCalls (NewDeckService.set sampleDeck.UUID { sampleDeck with Opened := true })
        [.Draw { sampleDeck with Opened := true } 3,
         .Update { sampleDeck with Opened := true, Cards := some (allCards.take 2) },
         .Open sampleDeck,
         .Create sampleEnv
           { sampleDeck with UUID := "00000000-0000-0000-0000-000000000000".toList,
                             Cards := none }]
        sampleDeck.UUID = some later ∧ later.Opened = true :=
  ⟨by decide,
    C15_Opened_stays _ (NewDeckService.set sampleDeck.UUID { sampleDeck with Opened := true })
      sampleDeck.UUID { sampleDeck with Opened := true } (by decide) rfl (by decide)⟩

/-- C15 fails as stated: after `Create` of a deck with a given id and `Open` of it, the
stored deck has `Opened == true`; a further `Create` with the same id (or an `Update`,
or a `Draw`, of a copy taken before the `Open`) overwrites the record, and the stored deck
has `Opened == false`. -/
theorem C15_Opened_reset_counterexample :
    (runCalls NewDeckService
      [.Create sampleEnv { sampleDeck with Remaining := 0, Cards := none },
       .Open sampleDeck] sampleDeck.UUID).map Deck.Opened = some true ∧
    (runCalls NewDeckService
      [.Create sampleEnv { sampleDeck with Remaining := 0, Cards := none },
       .Open sampleDeck,
       .Create sampleEnv { sampleDeck with Remaining := 0, Cards := none }]
      sampleDeck.UUID).map Deck.Opened = some false ∧
    (runCalls NewDeckService
      [.Create sampleEnv { sampleDeck with Remaining := 0, Cards := none },
       .Open sampleDeck,
       .Update sampleDeck] sampleDeck.UUID).map Deck.Opened = some false ∧
    (runCalls NewDeckService
      [.Create sampleEnv { sampleDeck with Remaining := 0, Cards := none },
       .Open sampleDeck,
       .Draw sampleDeck 1] sampleDeck.UUID).map Deck.Opened = some false := by
  refine ⟨by decide, by decide, by decide, by decide⟩

/-! ## Which cards a code list gives -/

theorem ByCode_1S (env : Env) :
    cardValidator.ByCode env "1S".toList =
      .done (.ok ⟨"1".toList, "SPADES".toList, "1S".toList⟩) := by
  rw [ByCode_of_normal env "1S".toList (by decide) (by decide)]
  decide

theorem ByCode_plus5S (env : Env) :
    cardValidator.ByCode env "+5S".toList =
      .done (.ok ⟨"+5".toList, "SPADES".toList, "+5S".toList⟩) := by
  rw [ByCode_of_normal env "+5S".toList (by decide) (by decide)]
  decide

theorem ByCode_05S (env : Env) :
    cardValidator.ByCode env "05S".toList =
      .done (.ok ⟨"05".toList, "SPADES".toList, "05S".toList⟩) := by
  rw [ByCode_of_normal env "05S".toList (by decide) (by decide)]
  decide

/-- C19, at the code `1S`: the rank check accepts 1, and `ByCode` succeeds with the card
of value `1`, suit SPADES and code `1S`, which is none of the 52 cards of `All()`; so do
`+5S` and `05S`, with the values `+5` and `05`. -/
theorem C19_ByCode_nonstandard_card (env : Env) :
    staticCardStorage.All = .done (.ok (some allCards)) ∧
    cardValidator.ByCode env "1S".toList =
      .done (.ok ⟨"1".toList, "SPADES".toList, "1S".toList⟩) ∧
    (⟨"1".toList, "SPADES".toList, "1S".toList⟩ : Card) ∉ allCards ∧
    cardValidator.ByCode env "+5S".toList =
      .done (.ok ⟨"+5".toList, "SPADES".toList, "+5S".toList⟩) ∧
    (⟨"+5".toList, "SPADES".toList, "+5S".toList⟩ : Card) ∉ allCards ∧
    cardValidator.ByCode env "05S".toList =
      .done (.ok ⟨"05".toList, "SPADES".toList, "05S".toList⟩) ∧
    (⟨"05".toList, "SPADES".toList, "05S".toList⟩ : Card) ∉ allCards ∧
    "1".toList ∉ values :=
  ⟨by decide, ByCode_1S env, by decide, ByCode_plus5S env, by decide, ByCode_05S env, by decide,
    by decide⟩

theorem ByCodesLoop_ok (env : Env) (codes : List GoString) (cards : List Card)
    (h : ByCodesLoop env codes = .done (.ok cards)) :
    List.Forall₂ (fun code card => cardValidator.ByCode env code = .done (.ok card))
      codes cards := by
  induction codes generalizing cards with
  | nil =>
    simp only [ByCodesLoop, Run.done.injEq, Except.ok.injEq] at h
    subst h
    exact List.Forall₂.nil
  | cons code rest ih =>
    rw [ByCodesLoop] at h
    cases h1 : cardValidator.ByCode env code with
    | panicked =>
      rw [h1] at h
      simp at h
    | done r =>
      cases r with
      | error e =>
        rw [h1] at h
        simp at h
      | ok card =>
        rw [h1] at h
        cases h2 : ByCodesLoop env rest with
        | panicked =>
          rw [h2] at h
          simp at h
        | done r2 =>
          cases r2 with
          | error e =>
            rw [h2] at h
            simp at h
          | ok cs =>
            rw [h2] at h
            simp only [Run.done.injEq, Except.ok.injEq] at h
            subst h
            exact List.Forall₂.cons h1 (ih cs h2)

/-- When `ByCodesStr` succeeds it returns one card per comma-separated code, the card
`ByCode` resolves it to, in order. -/
theorem ByCodesStr_ok (env : Env) (codesStr : GoString) (cards : Option (List Card))
    (h : cardService.ByCodesStr env codesStr = .done (.ok cards)) :
    ∃ l, cards = some l ∧
      List.Forall₂ (fun code card => cardValidator.ByCode env code = .done (.ok card))
        (splitComma (TrimSpace codesStr)) l := by
  unfold cardService.ByCodesStr cardService.ByCodes at h
  cases hl : ByCodesLoop env (splitComma (TrimSpace codesStr)) with
  | panicked =>
    rw [hl] at h
    simp at h
  | done r =>
    cases r with
    | error e =>
      rw [hl] at h
      simp at h
    | ok l =>
      rw [hl] at h
      simp only [Run.done.injEq, Except.ok.injEq] at h
      exact ⟨l, h.symm, ByCodesLoop_ok env _ l hl⟩

theorem Create_codes (env : Env) (repo : Repo) (deck : Deck) (cards : Option (List Card))
    (hId : deck.UUID = [] ∨ env.uuidParseOk deck.UUID = true)
    (hShuffled : deck.Shuffled = false) (hCodes : deck.CardCodes ≠ [])
    (hBy : cardService.ByCodesStr env deck.CardCodes = .done (.ok cards)) :
    deckValidator.Create env repo deck =
      .done (none,
        { deck with UUID := idAfterCreate env deck, Remaining := len cards, Cards := cards,
                    CardCodes := [] },
        repo.set (idAfterCreate env deck)
          { deck with UUID := idAfterCreate env deck, Remaining := len cards, Cards := cards,
                      CardCodes := [] }) := by
  rw [Create_eq, createSteps_codes env deck cards hId hCodes hBy]
  simp only []
  rw [shuffle_of_not_shuffled env _ (by exact hShuffled)]

/-- C20 as the code has it: when `Create` succeeds on a deck with a non-empty
`CardCodes`, the cards of the deck are the cards `ByCodesStr` resolves, one per
comma-separated code: in the order of the codes when `Shuffled` is false, a permutation of
them otherwise. Nothing drops a repeated card: the cards of the deck are pairwise distinct
exactly when the resolved cards are. -/
theorem C20_Create_keeps_resolved_cards (env : Env) (repo : Repo) (deck after : Deck)
    (stored : Repo) (hCodes : deck.CardCodes ≠ [])
    (hCreate : deckValidator.Create env repo deck = .done (none, after, stored)) :
    ∃ cards : List Card,
      cardService.ByCodesStr env deck.CardCodes = .done (.ok (some cards)) ∧
      List.Forall₂ (fun code card => cardValidator.ByCode env code = .done (.ok card))
        (splitComma (TrimSpace deck.CardCodes)) cards ∧
      (elems after.Cards).Perm cards ∧
      (deck.Shuffled = false → after.Cards = some cards) ∧
      ((elems after.Cards).Nodup ↔ cards.Nodup) := by
  rcases Create_cases env repo deck with h | ⟨e, d, h⟩ | ⟨d1, d, h, hsteps, _, _, _, _, _, hperm, hplain⟩
  · rw [h] at hCreate
    cases hCreate
  · rw [h] at hCreate
    simp at hCreate
  · rw [h] at hCreate
    simp only [Run.done.injEq, Prod.mk.injEq, true_and] at hCreate
    obtain ⟨hd, _⟩ := hCreate
    subst hd
    rw [createSteps_eq] at hsteps
    by_cases hv : env.uuidParseOk (idAfterCreate env deck) = true
    · simp only [hv, hCodes, ne_eq, not_false_eq_true, if_true] at hsteps
      cases hBy : cardService.ByCodesStr env deck.CardCodes with
      | panicked =>
        rw [hBy] at hsteps
        simp at hsteps
      | done r =>
        cases r with
        | error e =>
          rw [hBy] at hsteps
          simp at hsteps
        | ok cs =>
          rw [hBy] at hsteps
          simp only [Run.done.injEq, Prod.mk.injEq, true_and] at hsteps
          obtain ⟨l, hl, hall⟩ := ByCodesStr_ok env deck.CardCodes cs hBy
          subst hl
          subst hsteps
          have hp : (elems d.Cards).Perm l := hperm
          refine ⟨l, rfl, hall, hp, ?_, hp.nodup_iff⟩
          intro hS
          rw [hplain hS]
    · simp only [hv, if_false] at hsteps
      simp at hsteps

/-- C20 as the code has it, at `CardCodes = " 2h,KC "`: the deck holds the two resolved
cards, the 2 of HEARTS and the KING of CLUBS, in that order, and they are distinct. -/
theorem C20_Create_keeps_resolved_cards_witness :
    ∃ (after : Deck) (stored : Repo) (cards : List Card),
      deckValidator.Create sampleEnv NewDeckService
        { sampleDeck with CardCodes := " 2h,KC ".toList } = .done (none, after, stored) ∧
      cardService.ByCodesStr sampleEnv " 2h,KC ".toList = .done (.ok (some cards)) ∧
      cards = [⟨"2".toList, "HEARTS".toList, "2H".toList⟩,
               ⟨"KING".toList, "CLUBS".toList, "KC".toList⟩] ∧
      after.Cards = some cards ∧ ((elems after.Cards).Nodup ↔ cards.Nodup) := by
  have hBy : cardService.ByCodesStr sampleEnv " 2h,KC ".toList =
      .done (.ok (some [⟨"2".toList, "HEARTS".toList, "2H".toList⟩,
                        ⟨"KING".toList, "CLUBS".toList, "KC".toList⟩])) := by decide
  have hCreate := Create_codes sampleEnv NewDeckService
    { sampleDeck with CardCodes := " 2h,KC ".toList } _ (Or.inr (by decide)) rfl (by decide) hBy
  obtain ⟨cards, h1, _, _, h4, h5⟩ :=
    C20_Create_keeps_resolved_cards sampleEnv NewDeckService
      { sampleDeck with CardCodes := " 2h,KC ".toList } _ _ (by decide) hCreate
  have hc : cards = [⟨"2".toList, "HEARTS".toList, "2H".toList⟩,
                     ⟨"KING".toList, "CLUBS".toList, "KC".toList⟩] := by
    have h := h1.symm.trans hBy
    simp only [Run.done.injEq, Except.ok.injEq, Option.some.injEq] at h
    exact h
  exact ⟨_, _, cards, hCreate, h1, hc, h4 rfl, h5⟩

/-- C20 fails as stated: on `CardCodes = "AS,AS"` `Create` succeeds and leaves the deck
with the ACE of SPADES twice, `Remaining == 2`; the code `AS` occurs twice. -/
theorem C20_duplicate_codes_counterexample :
    ∃ (after : Deck) (stored : Repo),
      deckValidator.Create sampleEnv NewDeckService
        { sampleDeck with Remaining := 0, Cards := none, CardCodes := "AS,AS".toList } =
          .done (none, after, stored) ∧
      after.Cards = some [⟨"ACE".toList, "SPADES".toList, "AS".toList⟩,
                          ⟨"ACE".toList, "SPADES".toList, "AS".toList⟩] ∧
      after.Remaining = 2 ∧ ¬ (elems after.Cards).Nodup ∧
      ¬ ((elems after.Cards).map Card.Code).Nodup :=
  ⟨_, _, Create_codes sampleEnv NewDeckService
      { sampleDeck with Remaining := 0, Cards := none, CardCodes := "AS,AS".toList }
      (some [⟨"ACE".toList, "SPADES".toList, "AS".toList⟩,
             ⟨"ACE".toList, "SPADES".toList, "AS".toList⟩])
      (Or.inr (by decide)) rfl (by decide) (by decide),
    rfl, by decide, by decide, by decide⟩

/-! ## Codes of values and suits -/

theorem NewCard_of_codes (value : Value) (suit : Suit) (vc sc : GoString)
    (hv : Value.Code value = .done vc) (hs : Suit.Code suit = .done sc) :
    NewCard value suit = .done ⟨value, suit, vc ++ sc⟩ := by
  simp [NewCard, hv, hs]

/-- C23: for each of the 13 values and 4 suits, `NewCard(value, suit)` has that value
and suit and the code `value.Code() + suit.Code()`; `Value.Code` is the numeral itself for
`2` to `10` and the first letter for ACE, JACK, QUEEN, KING; `Suit.Code` is the first
letter of the suit; so `NewCard(ACE, SPADES).Code` is `AS` and
`NewCard("10", DIAMONDS).Code` is `10D`. -/
theorem C23_NewCard_code :
    (∀ value ∈ values, ∀ suit ∈ suits, ∃ vc sc,
      Value.Code value = .done vc ∧ Suit.Code suit = .done sc ∧
      NewCard value suit = .done ⟨value, suit, vc ++ sc⟩) ∧
    values.map Value.Code =
      [.done "A".toList, .done "2".toList, .done "3".toList, .done "4".toList,
       .done "5".toList, .done "6".toList, .done "7".toList, .done "8".toList,
       .done "9".toList, .done "10".toList, .done "J".toList, .done "Q".toList,
       .done "K".toList] ∧
    Suit.Code "CLUBS".toList = .done "C".toList ∧
    Suit.Code "DIAMONDS".toList = .done "D".toList ∧
    Suit.Code "HEARTS".toList = .done "H".toList ∧
    Suit.Code "SPADES".toList = .done "S".toList ∧
    suits.map Suit.Code = [.done "S".toList, .done "D".toList, .done "C".toList,
      .done "H".toList] ∧
    NewCard ValueAce SuitSpades = .done ⟨"ACE".toList, "SPADES".toList, "AS".toList⟩ ∧
    NewCard "10".toList SuitDiamonds =
      .done ⟨"10".toList, "DIAMONDS".toList, "10D".toList⟩ := by
  refine ⟨?_, by decide, by decide, by decide, by decide, by decide, by decide, by decide,
    by decide⟩
  intro value hv suit hs
  have h1 : ∀ v ∈ values, Value.Code v ≠ .panicked := by decide
  have h2 : ∀ s ∈ suits, Suit.Code s ≠ .panicked := by decide
  cases hvc : Value.Code value with
  | panicked => exact absurd hvc (h1 value hv)
  | done vc =>
    cases hsc : Suit.Code suit with
    | panicked => exact absurd hsc (h2 suit hs)
    | done sc => exact ⟨vc, sc, rfl, rfl, NewCard_of_codes value suit vc sc hvc hsc⟩

/-! ## Codes the checks let through, and codes that panic -/

/-- A code whose trimmed form is upper-case ASCII resolves as that form. -/
theorem ByCode_of_trim (env : Env) (code t : GoString) (ht : TrimSpace code = t)
    (hu : ∀ c ∈ t, c.toNat < 97) : cardValidator.ByCode env code = resolveNormalized t := by
  rw [ByCode_eq_resolveNormalized, ht, ToUpper_of_lt env t hu]

theorem ByCode_AXS (env : Env) :
    cardValidator.ByCode env "AXS".toList =
      .done (.ok ⟨"ACE".toList, "SPADES".toList, "AS".toList⟩) := by
  rw [ByCode_of_normal env "AXS".toList (by decide) (by decide)]
  decide

/-- C21, at the code `AXS`: its value part `AX` is no card value code, yet the rank
check looks only at the first rune `A`, and `ByCode` returns the ACE of SPADES, not
`ErrCardCodeValueInvalid`; and at `1S`: the value part `1` is no card value code, yet
`ByCode` returns a card of value `1`. -/
theorem C21_ByCode_accepts_invalid_value (env : Env) :
    "AXS".toList.dropLast = "AX".toList ∧
    "AX".toList ∉ ["A".toList, "2".toList, "3".toList, "4".toList, "5".toList, "6".toList,
      "7".toList, "8".toList, "9".toList, "10".toList, "J".toList, "Q".toList,
      "K".toList] ∧
    cardValidator.ByCode env "AXS".toList =
      .done (.ok ⟨"ACE".toList, "SPADES".toList, "AS".toList⟩) ∧
    "1S".toList.dropLast = "1".toList ∧
    "1".toList ∉ ["A".toList, "2".toList, "3".toList, "4".toList, "5".toList, "6".toList,
      "7".toList, "8".toList, "9".toList, "10".toList, "J".toList, "Q".toList,
      "K".toList] ∧
    cardValidator.ByCode env "1S".toList =
      .done (.ok ⟨"1".toList, "SPADES".toList, "1S".toList⟩) :=
  ⟨by decide, by decide, ByCode_AXS env, by decide, by decide, ByCode_1S env⟩

theorem ByCode_blank (env : Env) (code : GoString) (h : TrimSpace code = []) :
    cardValidator.ByCode env code = .panicked := by
  rw [ByCode_of_trim env code [] h (fun c hc => by cases hc)]
  rfl

theorem ByCode_10H (env : Env) :
    cardValidator.ByCode env "10H".toList =
      .done (.ok ⟨"10".toList, "HEARTS".toList, "10H".toList⟩) := by
  rw [ByCode_of_normal env "10H".toList (by decide) (by decide)]
  decide

/-- C27, at the empty code and at a code of blanks: both checks skip the code and the
lookup indexes `r[len(r)-1]` on no runes, so `ByCode` panics; hence `ByCodesStr` panics on
a text of blanks, on a trailing comma and on a doubled comma. A single rune such as `A`
or `5` does return an error. -/
theorem C27_ByCode_panics_on_blank (env : Env) :
    staticCardStorage.ByCode [] = .panicked ∧
    cardValidator.ByCode env "".toList = .panicked ∧
    cardValidator.ByCode env "  ".toList = .panicked ∧
    cardService.ByCodesStr env "  ".toList = .panicked ∧
    cardService.ByCodesStr env "AS,".toList = .panicked ∧
    cardService.ByCodesStr env "AS,,10H".toList = .panicked ∧
    cardValidator.ByCode env "A".toList = .done (.error .ErrCardCodeSuitInvalid) ∧
    cardValidator.ByCode env "5".toList = .done (.error .ErrCardCodeValueInvalid) := by
  have hAS := ByCode_AS env
  have hE := ByCode_empty env
  refine ⟨rfl, hE, ByCode_blank env _ (by decide), ?_, ?_, ?_, ?_, ?_⟩
  · show cardService.ByCodes env (splitComma (TrimSpace "  ".toList)) = .panicked
    rw [show splitComma (TrimSpace "  ".toList) = [] ++ [] :: [] from by decide]
    exact ByCodes_of_first_panic env [] [] [] [] List.Forall₂.nil hE
  · show cardService.ByCodes env (splitComma (TrimSpace "AS,".toList)) = .panicked
    rw [show splitComma (TrimSpace "AS,".toList) = ["AS".toList] ++ [] :: [] from by decide]
    exact ByCodes_of_first_panic env ["AS".toList] [] [] _
      (List.Forall₂.cons hAS List.Forall₂.nil) hE
  · show cardService.ByCodes env (splitComma (TrimSpace "AS,,10H".toList)) = .panicked
    rw [show splitComma (TrimSpace "AS,,10H".toList) =
      ["AS".toList] ++ [] :: ["10H".toList] from by decide]
    exact ByCodes_of_first_panic env ["AS".toList] ["10H".toList] [] _
      (List.Forall₂.cons hAS List.Forall₂.nil) hE
  · rw [ByCode_of_normal env "A".toList (by decide) (by decide)]
    decide
  · rw [ByCode_of_normal env "5".toList (by decide) (by decide)]
    decide

/-! ## Draw with a negative count -/

theorem Draw_negative (repo : Repo) (deck : Deck) (count : Int)
    (hOpened : deck.Opened = false) (hRem : deck.Remaining = len deck.Cards)
    (hneg : count < 0) : deckService.Draw repo deck count = .panicked := by
  have h0 := len_nonneg deck.Cards
  have hc : ¬ (count > deck.Remaining) := by omega
  have hO : ¬ (deck.Opened = true) := by simp [hOpened]
  unfold deckService.Draw
  rw [if_neg hO, if_neg hc]
  simp only [sliceTo, if_pos (Or.inl hneg : count < 0 ∨ len deck.Cards < count)]

/-- C29, at the deck of 52 cards (`Remaining == len(Cards)`, not opened) and
`count = -1`: the check `count > Remaining` lets the count through, the slice expression
`deck.Cards[:count]` is out of range, and `Draw` panics: it returns neither cards nor an
error, and stores nothing. -/
theorem C29_Draw_negative_count_panics (repo : Repo) :
    sampleDeck.Remaining = len sampleDeck.Cards ∧ sampleDeck.Opened = false ∧
    ¬ ((-1 : Int) > sampleDeck.Remaining) ∧
    sliceTo sampleDeck.Cards (-1) = .panicked ∧
    deckService.Draw repo sampleDeck (-1) = .panicked ∧
    applyCall repo (.Draw sampleDeck (-1)) = repo := by
  have h := Draw_negative repo sampleDeck (-1) rfl (by decide) (by decide)
  refine ⟨by decide, rfl, by decide, by decide, h, ?_⟩
  simp only [applyCall, h, repoAfter]

/-! ## What Update and Draw ask of the id -/

theorem Draw_ok (repo : Repo) (deck : Deck) (count : Int)
    (hOpened : deck.Opened = false) (hId : deck.UUID ≠ [])
    (h0 : 0 ≤ count) (hc : count ≤ deck.Remaining) (hlen : count ≤ len deck.Cards) :
    deckService.Draw repo deck count =
      .done (.ok (deck.Cards.map (List.take count.toNat)),
        { deck with Cards := deck.Cards.map (List.drop count.toNat),
                    Remaining := len (deck.Cards.map (List.drop count.toNat)) },
        repo.set deck.UUID
          { deck with Cards := deck.Cards.map (List.drop count.toNat),
                      Remaining := len (deck.Cards.map (List.drop count.toNat)) }) := by
  have hO : ¬ (deck.Opened = true) := by simp [hOpened]
  have hc2 : ¬ (count > deck.Remaining) := by omega
  have hs : ¬ (count < 0 ∨ len deck.Cards < count) := by omega
  unfold deckService.Draw
  rw [if_neg hO, if_neg hc2]
  simp only [sliceTo, sliceFrom, if_neg hs]
  rw [Update_of_id repo _ (by exact hId)]

/-- C22 as the code has it: `Update` and `Draw` ask only for a non-empty id. On a deck
whose id is non-empty and does not parse as a UUID, `ByUUID` of the id fails with
`ErrUUIDInvalid`, while `Update` succeeds and stores the deck under that id, and so does
`Draw` on a deck that is not opened, for `0 <= count <= Remaining == len(Cards)`. -/
theorem C22_Update_Draw_accept_invalid_uuid (env : Env) (repo : Repo) (deck : Deck)
    (hne : deck.UUID ≠ []) (hInvalid : env.uuidParseOk deck.UUID = false) :
    deckValidator.ByUUID env repo deck.UUID = .done (.error .ErrUUIDInvalid) ∧
    (∃ (after : Deck) (stored : Repo),
      deckValidator.Update repo deck = .done (none, after, stored) ∧
      after = { deck with Remaining := len deck.Cards } ∧
      stored deck.UUID = some after) ∧
    (∀ count : Int, deck.Opened = false → deck.Remaining = len deck.Cards → 0 ≤ count →
      count ≤ deck.Remaining →
      ∃ (drawn : Option (List Card)) (after : Deck) (stored : Repo),
        deckService.Draw repo deck count = .done (.ok drawn, after, stored) ∧
        elems drawn = (elems deck.Cards).take count.toNat ∧
        stored deck.UUID = some after) := by
  refine ⟨?_, ⟨_, _, Update_of_id repo deck hne, rfl, by simp [Repo.set]⟩, ?_⟩
  · simp [deckValidator.ByUUID, runDeckValFuncs, deckValidator.requireUUID,
      deckValidator.isValidUUID, hne, hInvalid]
  · intro count hO hR h0 hc
    exact ⟨_, _, _, Draw_ok repo deck count hO hne h0 hc (by omega),
      elems_map _ _ List.take_nil, by simp [Repo.set]⟩

/-- C22 as the code has it, at the deck of 52 cards under the id `abcd`: lookup fails
with `ErrUUIDInvalid`, `Update` stores it, and `Draw` of 5 cards stores it. -/
theorem C22_Update_Draw_accept_invalid_uuid_witness :
    "abcd".toList ≠ [] ∧ sampleEnv.uuidParseOk "abcd".toList = false ∧
    deckValidator.ByUUID sampleEnv NewDeckService "abcd".toList =
      .done (.error .ErrUUIDInvalid) ∧
    (∃ (after : Deck) (stored : Repo),
      deckValidator.Update NewDeckService { sampleDeck with UUID := "abcd".toList } =
        .done (none, after, stored) ∧ stored "abcd".toList = some after) ∧
    ∃ (drawn : Option (List Card)) (after : Deck) (stored : Repo),
      deckService.Draw NewDeckService { sampleDeck with UUID := "abcd".toList } 5 =
        .done (.ok drawn, after, stored) ∧ stored "abcd".toList = some after := by
  obtain ⟨h1, ⟨a, s, h2, _, h3⟩, h4⟩ :=
    C22_Update_Draw_accept_invalid_uuid sampleEnv NewDeckService
      { sampleDeck with UUID := "abcd".toList } (by decide) (by decide)
  obtain ⟨drawn, a2, s2, h5, _, h6⟩ := h4 5 rfl (by decide) (by decide) (by decide)
  exact ⟨by decide, by decide, h1, ⟨a, s, h2, h3⟩, drawn, a2, s2, h5, h6⟩

/-- C22 fails as stated: on the deck of 52 cards with the id `abcd`, which is not
empty and does not parse as a UUID, `Update` returns no error and the repository then
holds the deck under `abcd`; `Draw` of 5 cards returns them and stores the deck too. -/
theorem C22_invalid_uuid_counterexample :
    "abcd".toList ≠ [] ∧ sampleEnv.uuidParseOk "abcd".toList = false ∧
    (∃ (after : Deck) (stored : Repo),
      deckValidator.Update NewDeckService { sampleDeck with UUID := "abcd".toList } =
        .done (none, after, stored) ∧
      stored "abcd".toList = some { sampleDeck with UUID := "abcd".toList }) ∧
    ∃ (after : Deck) (stored : Repo),
      deckService.Draw NewDeckService { sampleDeck with UUID := "abcd".toList } 5 =
        .done (.ok (some (allCards.take 5)), after, stored) ∧
      (stored "abcd".toList).map Deck.Remaining = some 47 :=
  ⟨by decide, by decide,
    ⟨_, _, Update_of_id NewDeckService { sampleDeck with UUID := "abcd".toList } (by decide),
      by decide⟩,
    ⟨_, _, Draw_ok NewDeckService { sampleDeck with UUID := "abcd".toList } 5 rfl (by decide)
      (by decide) (by decide) (by decide), by decide⟩⟩

/-! ## Draw when it fails -/

/-- C28 as the code has it: whenever `Draw` returns an error, the repository is as it
was and so is `Remaining`; with `ErrDeckOpened` or `ErrNotEnoughCards` the deck is as it
was in every field; with the error of the storage `Update`, `ErrUUIDRequired` on an empty
id, `Cards` has already lost its first `count` cards. -/
theorem C28_Draw_on_failure (repo : Repo) (deck : Deck) (count : Int) (e : Err)
    (after : Deck) (stored : Repo)
    (hDraw : deckService.Draw repo deck count = .done (.error e, after, stored)) :
    stored = repo ∧ after.Remaining = deck.Remaining ∧
    ((e = .ErrDeckOpened ∧ deck.Opened = true ∧ after = deck) ∨
     (e = .ErrNotEnoughCards ∧ deck.Opened = false ∧ count > deck.Remaining ∧ after = deck) ∨
     (e = .ErrUUIDRequired ∧ deck.Opened = false ∧ deck.UUID = [] ∧ 0 ≤ count ∧
       count ≤ deck.Remaining ∧
       after = { deck with Cards := deck.Cards.map (List.drop count.toNat) })) := by
  unfold deckService.Draw at hDraw
  by_cases hO : deck.Opened = true
  · rw [if_pos hO] at hDraw
    simp only [Run.done.injEq, Prod.mk.injEq, Except.error.injEq] at hDraw
    obtain ⟨h1, h2, h3⟩ := hDraw
    subst h2
    exact ⟨h3.symm, rfl, Or.inl ⟨h1.symm, hO, rfl⟩⟩
  · have hO2 : deck.Opened = false := by simpa using hO
    rw [if_neg hO] at hDraw
    by_cases hc : count > deck.Remaining
    · rw [if_pos hc] at hDraw
      simp only [Run.done.injEq, Prod.mk.injEq, Except.error.injEq] at hDraw
      obtain ⟨h1, h2, h3⟩ := hDraw
      subst h2
      exact ⟨h3.symm, rfl, Or.inr (Or.inl ⟨h1.symm, hO2, hc, rfl⟩)⟩
    · rw [if_neg hc] at hDraw
      by_cases hs : count < 0 ∨ len deck.Cards < count
      · simp only [sliceTo, if_pos hs] at hDraw
        cases hDraw
      · simp only [sliceTo, sliceFrom, if_neg hs] at hDraw
        by_cases hu : deck.UUID = []
        · rw [Update_of_empty_id repo _ (by exact hu)] at hDraw
          simp only [Run.done.injEq, Prod.mk.injEq, Except.error.injEq] at hDraw
          obtain ⟨h1, h2, h3⟩ := hDraw
          subst h2
          exact ⟨h3.symm, rfl,
            Or.inr (Or.inr ⟨h1.symm, hO2, hu, by omega, by omega, rfl⟩)⟩
        · rw [Update_of_id repo _ (by exact hu)] at hDraw
          simp at hDraw

/-- C28 as the code has it, at the deck of 52 cards and `count = 99`: the deck and the
repository stay as they were. -/
theorem C28_Draw_on_failure_witness :
    deckService.Draw NewDeckService sampleDeck 99 =
      .done (.error .ErrNotEnoughCards, sampleDeck, NewDeckService) ∧
    NewDeckService = NewDeckService ∧ sampleDeck.Remaining = sampleDeck.Remaining ∧
    ((Err.ErrNotEnoughCards = .ErrDeckOpened ∧ sampleDeck.Opened = true ∧
        sampleDeck = sampleDeck) ∨
     (Err.ErrNotEnoughCards = .ErrNotEnoughCards ∧ sampleDeck.Opened = false ∧
        (99 : Int) > sampleDeck.Remaining ∧ sampleDeck = sampleDeck) ∨
     (Err.ErrNotEnoughCards = .ErrUUIDRequired ∧ sampleDeck.Opened = false ∧
        sampleDeck.UUID = [] ∧ (0 : Int) ≤ 99 ∧ (99 : Int) ≤ sampleDeck.Remaining ∧
        sampleDeck = { sampleDeck with
          Cards := sampleDeck.Cards.map (List.drop (99 : Int).toNat) })) :=
  ⟨rfl, C28_Draw_on_failure NewDeckService sampleDeck 99 .ErrNotEnoughCards sampleDeck
    NewDeckService rfl⟩

/-- C28 fails as stated: on the deck of 52 cards without id, `Draw` of 5 cards returns
`ErrUUIDRequired` from `Update`, and the deck is left with 47 cards, its `Remaining` still
52; the repository is unchanged. -/
theorem C28_Draw_not_atomic_counterexample :
    deckService.Draw NewDeckService { sampleDeck with UUID := [] } 5 =
      .done (.error .ErrUUIDRequired,
        { sampleDeck with UUID := [], Cards := some (allCards.drop 5) }, NewDeckService) ∧
    ({ sampleDeck with UUID := [], Cards := some (allCards.drop 5) } : Deck).Cards ≠
      ({ sampleDeck with UUID := [] } : Deck).Cards ∧
    len ({ sampleDeck with UUID := [], Cards := some (allCards.drop 5) } : Deck).Cards = 47 ∧
    ({ sampleDeck with UUID := [], Cards := some (allCards.drop 5) } : Deck).Remaining = 52 :=
  ⟨rfl, by decide, by decide, rfl⟩

/-! ## Create when the codes do not resolve -/

theorem checkCodeValue_cases (card : Card) :
    cardValidator.checkCodeValue card = (none, card) ∨
    cardValidator.checkCodeValue card = (some .ErrCardCodeValueInvalid, card) := by
  unfold cardValidator.checkCodeValue
  split
  · exact Or.inl rfl
  · split
    · exact Or.inl rfl
    · split
      · exact Or.inr rfl
      · split
        · exact Or.inr rfl
        · exact Or.inl rfl

theorem checkCodeSuit_cases (card : Card) :
    cardValidator.checkCodeSuit card = (none, card) ∨
    cardValidator.checkCodeSuit card = (some .ErrCardCodeSuitInvalid, card) := by
  unfold cardValidator.checkCodeSuit
  split
  · exact Or.inl rfl
  · split
    · exact Or.inr rfl
    · exact Or.inl rfl

/-- The only errors `ByCode` returns are the two validation errors. -/
theorem ByCode_error_cases (env : Env) (code : GoString) (e : Err)
    (h : cardValidator.ByCode env code = .done (.error e)) :
    e = .ErrCardCodeValueInvalid ∨ e = .ErrCardCodeSuitInvalid := by
  rw [ByCode_eq_resolveNormalized] at h
  unfold resolveNormalized at h
  simp only [runCardValFuncs] at h
  rcases checkCodeValue_cases
    { Value := [], Suit := [], Code := ToUpper env (TrimSpace code) } with hv | hv
  · rw [hv] at h
    simp only [] at h
    rcases checkCodeSuit_cases
      { Value := [], Suit := [], Code := ToUpper env (TrimSpace code) } with hs | hs
    · rw [hs] at h
      simp only [] at h
      exact absurd h (staticCardStorage_ByCode_ne_error _ e)
    · rw [hs] at h
      simp only [Run.done.injEq, Except.error.injEq] at h
      exact Or.inr h.symm
  · rw [hv] at h
    simp only [Run.done.injEq, Except.error.injEq] at h
    exact Or.inl h.symm

theorem ByCodesLoop_error_cases (env : Env) (codes : List GoString) (e : Err)
    (h : ByCodesLoop env codes = .done (.error e)) :
    e = .ErrCardCodeValueInvalid ∨ e = .ErrCardCodeSuitInvalid := by
  induction codes with
  | nil => simp [ByCodesLoop] at h
  | cons code rest ih =>
    rw [ByCodesLoop] at h
    cases h1 : cardValidator.ByCode env code with
    | panicked =>
      rw [h1] at h
      simp at h
    | done r =>
      cases r with
      | error e1 =>
        rw [h1] at h
        simp only [Run.done.injEq, Except.error.injEq] at h
        subst h
        exact ByCode_error_cases env code e1 h1
      | ok card =>
        rw [h1] at h
        cases h2 : ByCodesLoop env rest with
        | panicked =>
          rw [h2] at h
          simp at h
        | done r2 =>
          cases r2 with
          | error e2 =>
            rw [h2] at h
            simp only [Run.done.injEq, Except.error.injEq] at h
            subst h
            exact ih h2
          | ok cs =>
            rw [h2] at h
            simp at h

theorem ByCodesStr_error_cases (env : Env) (codesStr : GoString) (e : Err)
    (h : cardService.ByCodesStr env codesStr = .done (.error e)) :
    e = .ErrCardCodeValueInvalid ∨ e = .ErrCardCodeSuitInvalid := by
  unfold cardService.ByCodesStr cardService.ByCodes at h
  cases hl : ByCodesLoop env (splitComma (TrimSpace codesStr)) with
  | panicked =>
    rw [hl] at h
    simp at h
  | done r =>
    cases r with
    | error e1 =>
      rw [hl] at h
      simp only [Run.done.injEq, Except.error.injEq] at h
      subst h
      exact ByCodesLoop_error_cases env _ e1 hl
    | ok l =>
      rw [hl] at h
      simp at h

/-- C30: on a deck whose id lets the chain reach the codes (unset or valid), with a
non-empty `CardCodes` whose resolution fails, `Create` returns the error of `ByCodesStr`
as it is, one of the two validation errors; `Cards`, `Remaining`, `CardCodes` and the
flags stay as they were (no cards from `All()`, no `Remaining` update, no shuffle), only
an unset id has been generated; nothing is stored. -/
theorem C30_Create_codes_error (env : Env) (repo : Repo) (deck : Deck) (e : Err)
    (hId : deck.UUID = [] ∨ env.uuidParseOk deck.UUID = true)
    (hCodes : deck.CardCodes ≠ [])
    (hBy : cardService.ByCodesStr env deck.CardCodes = .done (.error e)) :
    ∃ after : Deck,
      deckValidator.Create env repo deck = .done (some e, after, repo) ∧
      (e = .ErrCardCodeValueInvalid ∨ e = .ErrCardCodeSuitInvalid) ∧
      after.Cards = deck.Cards ∧ after.Remaining = deck.Remaining ∧
      after.CardCodes = deck.CardCodes ∧
      after = { deck with UUID := idAfterCreate env deck } := by
  refine ⟨{ deck with UUID := idAfterCreate env deck }, ?_,
    ByCodesStr_error_cases env _ e hBy, rfl, rfl, rfl, rfl⟩
  rw [Create_eq, createSteps_eq]
  simp only [idAfterCreate_ok env deck hId, hCodes, ne_eq, not_false_eq_true, if_true, hBy]

/-- C30 at a shuffled deck that holds two cards, `Remaining` 7 and the codes `AS,X1S`:
`Create` returns `ErrCardCodeValueInvalid`, the deck keeps its two cards in their order
and its `Remaining` of 7, and nothing is stored. -/
theorem C30_Create_codes_error_witness :
    cardService.ByCodesStr sampleEnv "AS,X1S".toList =
      .done (.error .ErrCardCodeValueInvalid) ∧
    deckValidator.Create sampleEnv NewDeckService
        { sampleDeck with Shuffled := true, Remaining := 7, Cards := some (allCards.take 2),
                          CardCodes := "AS,X1S".toList } =
      .done (some .ErrCardCodeValueInvalid,
        { sampleDeck with Shuffled := true, Remaining := 7, Cards := some (allCards.take 2),
                          CardCodes := "AS,X1S".toList }, NewDeckService) := by
  have hBy : cardService.ByCodesStr sampleEnv "AS,X1S".toList =
      .done (.error .ErrCardCodeValueInvalid) := by decide
  obtain ⟨after, h1, _, _, _, _, h6⟩ :=
    C30_Create_codes_error sampleEnv NewDeckService
      { sampleDeck with Shuffled := true, Remaining := 7, Cards := some (allCards.take 2),
                        CardCodes := "AS,X1S".toList } .ErrCardCodeValueInvalid
      (Or.inr (by decide)) (by decide) hBy
  refine ⟨hBy, ?_⟩
  rw [h1, h6]
  rfl

/-! ## Texts of codes, and normalization -/

theorem splitComma_ne_nil (s : GoString) : splitComma s ≠ [] := by
  cases s with
  | nil => simp [splitComma]
  | cons c cs =>
    unfold splitComma
    split
    · simp
    · split <;> simp

theorem splitComma_eq_splitOn (s : GoString) : splitComma s = s.splitOn ',' := by
  unfold List.splitOn
  induction s with
  | nil => simp [splitComma, List.splitOnP_nil]
  | cons c cs ih =>
    rw [List.splitOnP_cons, splitComma]
    by_cases hc : c = ','
    · simp [hc, ih]
    · have hb : (c == ',') = false := by simpa using hc
      simp only [hc, if_false, hb, Bool.false_eq_true]
      rw [← ih]
      cases hs : splitComma cs with
      | nil => exact absurd hs (splitComma_ne_nil cs)
      | cons p ps => rfl

theorem TrimSpace_eq_rdropWhile (s : GoString) :
    TrimSpace s = (s.dropWhile isSpace).rdropWhile isSpace := rfl

theorem ByCode_trimmed (env : Env) (code t : GoString) (ht : TrimSpace code = t)
    (hu : ∀ c ∈ t, c.toNat < 97) (r : Run (Except Err Card)) (hr : resolveNormalized t = r) :
    cardValidator.ByCode env code = r := by
  rw [ByCode_of_trim env code t ht hu, hr]

/-- C24: for every text, `ByCodesStr(text)` is `ByCodes` on the list got by trimming the
blanks around the text and splitting the rest on commas: the same cards in the same order,
or the same error. So `" AS , 10H "` gives the ACE of SPADES and the 10 of HEARTS, and
`"X1S"` fails. -/
theorem C24_ByCodesStr_refines_spec (env : Env) (text : GoString) :
    cardService.ByCodesStr env text = resolveByCodesText env text ∧
    cardService.ByCodesStr env text =
      cardService.ByCodes env (((text.dropWhile isSpace).rdropWhile isSpace).splitOn ',') ∧
    cardService.ByCodesStr env " AS , 10H ".toList =
      .done (.ok (some [⟨"ACE".toList, "SPADES".toList, "AS".toList⟩,
                        ⟨"10".toList, "HEARTS".toList, "10H".toList⟩])) ∧
    cardService.ByCodesStr env "X1S".toList = .done (.error .ErrCardCodeValueInvalid) := by
  have h : cardService.ByCodesStr env text = resolveByCodesText env text := by
    unfold cardService.ByCodesStr resolveByCodesText
    rw [splitComma_eq_splitOn, TrimSpace_eq_rdropWhile]
  refine ⟨h, h, ?_, ?_⟩
  · show cardService.ByCodes env (splitComma (TrimSpace " AS , 10H ".toList)) = _
    rw [show splitComma (TrimSpace " AS , 10H ".toList) = ["AS ".toList, " 10H".toList]
      from by decide]
    apply ByCodes_of_all_ok
    refine List.Forall₂.cons ?_ (List.Forall₂.cons ?_ List.Forall₂.nil)
    · exact ByCode_trimmed env _ "AS".toList (by decide) (by decide) _ (by decide)
    · exact ByCode_trimmed env _ "10H".toList (by decide) (by decide) _ (by decide)
  · show cardService.ByCodes env (splitComma (TrimSpace "X1S".toList)) = _
    rw [show splitComma (TrimSpace "X1S".toList) = [] ++ "X1S".toList :: [] from by decide]
    exact ByCodes_of_first_error env [] [] _ [] _ List.Forall₂.nil (ByCode_X1S env)

theorem dropWhile_eq_cons_not (p : Char → Bool) (s : List Char) (a : Char) (r : List Char)
    (h : s.dropWhile p = a :: r) : p a = false := by
  induction s with
  | nil => simp at h
  | cons c cs ih =>
    rw [List.dropWhile_cons] at h
    by_cases hc : p c = true
    · rw [if_pos hc] at h
      exact ih h
    · rw [if_neg hc] at h
      simp only [List.cons.injEq] at h
      rw [← h.1]
      simpa using hc

theorem TrimSpace_idempotent (s : GoString) : TrimSpace (TrimSpace s) = TrimSpace s := by
  have hpre : (s.dropWhile isSpace).rdropWhile isSpace <+: s.dropWhile isSpace :=
    List.rdropWhile_prefix isSpace _
  have hdrop : (TrimSpace s).dropWhile isSpace = TrimSpace s := by
    rw [TrimSpace_eq_rdropWhile]
    cases hy : (s.dropWhile isSpace).rdropWhile isSpace with
    | nil => rfl
    | cons a t =>
      rw [hy] at hpre
      obtain ⟨rest, hrest⟩ := hpre
      have ha : isSpace a = false :=
        dropWhile_eq_cons_not isSpace s a (t ++ rest) (by rw [← hrest]; rfl)
      simp [List.dropWhile_cons, ha]
  rw [TrimSpace_eq_rdropWhile (TrimSpace s), hdrop, TrimSpace_eq_rdropWhile,
    List.rdropWhile_idempotent]

theorem TrimSpace_ToUpper (env : Env)
    (hSpace : ∀ c, isSpace (toUpperRune env c) = isSpace c) (s : GoString) :
    TrimSpace (ToUpper env s) = ToUpper env (TrimSpace s) := by
  have hcomp : isSpace ∘ toUpperRune env = isSpace := funext hSpace
  unfold TrimSpace ToUpper
  rw [List.dropWhile_map, hcomp, ← List.map_reverse, List.dropWhile_map, hcomp,
    ← List.map_reverse]

theorem ToUpper_idempotent (env : Env)
    (hIdem : ∀ c, toUpperRune env (toUpperRune env c) = toUpperRune env c) (s : GoString) :
    ToUpper env (ToUpper env s) = ToUpper env s := by
  unfold ToUpper
  rw [List.map_map]
  apply List.map_congr_left
  intro c _
  exact hIdem c

/-- C25: `ByCode` does not depend on the blanks around the code or on the case of its
letters: for every code `c`, `ByCode(c)` is `ByCode(ToUpper(TrimSpace(c)))`, the same card
or the same error; `" as "` and `"AS"` both give the ACE of SPADES with the code `AS`.
Of `unicode.ToUpper` this uses that it maps an upper-cased rune to itself and maps blanks
to blanks and other runes to other runes. -/
theorem C25_ByCode_normalization (env : Env)
    (hIdem : ∀ c, toUpperRune env (toUpperRune env c) = toUpperRune env c)
    (hSpace : ∀ c, isSpace (toUpperRune env c) = isSpace c) (code : GoString) :
    cardValidator.ByCode env code = cardValidator.ByCode env (ToUpper env (TrimSpace code)) ∧
    cardValidator.ByCode env " as ".toList =
      .done (.ok ⟨"ACE".toList, "SPADES".toList, "AS".toList⟩) ∧
    cardValidator.ByCode env "AS".toList =
      .done (.ok ⟨"ACE".toList, "SPADES".toList, "AS".toList⟩) := by
  refine ⟨?_, ?_, ByCode_AS env⟩
  · rw [ByCode_eq_resolveNormalized, ByCode_eq_resolveNormalized,
      TrimSpace_ToUpper env hSpace, TrimSpace_idempotent, ToUpper_idempotent env hIdem]
  · rw [ByCode_eq_resolveNormalized]
    have h : ToUpper env (TrimSpace " as ".toList) = "AS".toList := rfl
    rw [h]
    decide

theorem sampleEnv_toUpperRune (c : Char) :
    toUpperRune sampleEnv c =
      if 97 ≤ c.toNat ∧ c.toNat ≤ 122 then Char.ofNat (c.toNat - 32) else c := by
  unfold toUpperRune
  by_cases h : c.toNat < 128
  · simp [h]
  · have h2 : ¬ (97 ≤ c.toNat ∧ c.toNat ≤ 122) := by omega
    simp [h, h2, sampleEnv]

theorem toNat_ofNat_of_lt (n : Nat) (h : n < 128) : (Char.ofNat n).toNat = n := by
  have hv : n.isValidChar := Or.inl (by omega)
  simp [Char.ofNat, hv, Char.toNat, Char.ofNatAux, UInt32.toNat]

theorem sampleEnv_toUpper_idem (c : Char) :
    toUpperRune sampleEnv (toUpperRune sampleEnv c) = toUpperRune sampleEnv c := by
  rw [sampleEnv_toUpperRune c]
  by_cases h : 97 ≤ c.toNat ∧ c.toNat ≤ 122
  · rw [if_pos h, sampleEnv_toUpperRune]
    have hn := toNat_ofNat_of_lt (c.toNat - 32) (by omega)
    have h2 : ¬ (97 ≤ (Char.ofNat (c.toNat - 32)).toNat ∧
        (Char.ofNat (c.toNat - 32)).toNat ≤ 122) := by omega
    rw [if_neg h2]
  · rw [if_neg h, sampleEnv_toUpperRune, if_neg h]

theorem sampleEnv_toUpper_space (c : Char) :
    isSpace (toUpperRune sampleEnv c) = isSpace c := by
  rw [sampleEnv_toUpperRune c]
  by_cases h : 97 ≤ c.toNat ∧ c.toNat ≤ 122
  · rw [if_pos h]
    have hn := toNat_ofNat_of_lt (c.toNat - 32) (by omega)
    have h1 : isSpace (Char.ofNat (c.toNat - 32)) = false := by
      unfold isSpace
      rw [hn]
      simp
      omega
    have h2 : isSpace c = false := by
      unfold isSpace
      simp
      omega
    rw [h1, h2]
  · rw [if_neg h]

/-- C25 at the code `" 10h "` of the tests, with the upper-casing of `sampleEnv`. -/
theorem C25_ByCode_normalization_witness :
    ToUpper sampleEnv (TrimSpace " 10h ".toList) = "10H".toList ∧
    cardValidator.ByCode sampleEnv " 10h ".toList =
      cardValidator.ByCode sampleEnv "10H".toList ∧
    cardValidator.ByCode sampleEnv "10H".toList =
      .done (.ok ⟨"10".toList, "HEARTS".toList, "10H".toList⟩) :=
  ⟨by decide,
    (C25_ByCode_normalization sampleEnv sampleEnv_toUpper_idem sampleEnv_toUpper_space
      " 10h ".toList).1,
    by decide⟩

/-! ## The response of the draw handler -/

/-- What the draw handler writes when the deck is found and `Draw` returns an error:
the response of `json.Error`, and after it, for want of a `return`, that of
`json.Response` on the nil cards. -/
theorem Decks_Draw_of_error (lib : JSONLib) (env : Env) (repo : Repo) (uuid : GoString)
    (count : Int) (deck after : Deck) (e : Err) (stored : Repo) (w : ResponseWriter)
    (hFound : deckValidator.ByUUID env repo uuid = .done (.ok deck))
    (hDraw : deckService.Draw repo deck count = .done (.error e, after, stored)) :
    Decks.Draw lib env repo (.decoded count) uuid w =
      .done (json.Response lib (json.Error lib w e.Error 500) none 200, stored) := by
  simp only [Decks.Draw, hFound, hDraw]

theorem Response_after_Error (lib : JSONLib) (text : GoString) :
    json.Response lib (json.Error lib ⟨none, []⟩ text 500) none 200 =
      ⟨some 500, lib.marshalString text ++ ['\n'] ++ "null".toList⟩ := by
  simp [json.Response, json.Error, ResponseWriter.Write, ResponseWriter.WriteHeader,
    lib.marshalCards_nil]

/-- C26, at a draw of 99 cards from a stored deck of 52: the deck is found, `Draw`
returns `ErrNotEnoughCards`, and the handler answers with status 500 and a body that holds
the encoded error text, a newline, and then `null`: after `json.Error` the handler goes on
to `json.Response` with the nil cards. The body is not the encoded error text alone. -/
theorem C26_Draw_handler_writes_null (lib : JSONLib) :
    deckValidator.ByUUID sampleEnv (NewDeckService.set sampleDeck.UUID sampleDeck)
      sampleDeck.UUID = .done (.ok sampleDeck) ∧
    deckService.Draw (NewDeckService.set sampleDeck.UUID sampleDeck) sampleDeck 99 =
      .done (.error .ErrNotEnoughCards, sampleDeck,
        NewDeckService.set sampleDeck.UUID sampleDeck) ∧
    Decks.Draw lib sampleEnv (NewDeckService.set sampleDeck.UUID sampleDeck) (.decoded 99)
        sampleDeck.UUID ⟨none, []⟩ =
      .done (⟨some 500,
          lib.marshalString Err.ErrNotEnoughCards.Error ++ ['\n'] ++ "null".toList⟩,
        NewDeckService.set sampleDeck.UUID sampleDeck) ∧
    lib.marshalString Err.ErrNotEnoughCards.Error ++ ['\n'] ++ "null".toList ≠
      lib.marshalString Err.ErrNotEnoughCards.Error ++ ['\n'] ∧
    (json.Response sampleJSON (json.Error sampleJSON ⟨none, []⟩
        Err.ErrNotEnoughCards.Error 500) none 200).body =
      "\"there is not enough cards in the deck for the operation\"\nnull".toList ∧
    json.Error sampleJSON ⟨none, []⟩ "Unexpected Error".toList 500 =
      ⟨some 500, "\"Unexpected Error\"\n".toList⟩ := by
  have hFound : deckValidator.ByUUID sampleEnv (NewDeckService.set sampleDeck.UUID sampleDeck)
      sampleDeck.UUID = .done (.ok sampleDeck) :=
    ByUUID_of_stored sampleEnv NewDeckService sampleDeck (by decide)
  have hDraw : deckService.Draw (NewDeckService.set sampleDeck.UUID sampleDeck) sampleDeck 99 =
      .done (.error .ErrNotEnoughCards, sampleDeck,
        NewDeckService.set sampleDeck.UUID sampleDeck) := rfl
  refine ⟨hFound, hDraw, ?_, ?_, by decide, by decide⟩
  · rw [Decks_Draw_of_error lib sampleEnv _ _ 99 sampleDeck sampleDeck .ErrNotEnoughCards _ _
      hFound hDraw, Response_after_Error]
  · intro h
    have hl := congrArg List.length h
    simp at hl

/-! ## Draws compose -/

theorem Repo_set_set (repo : Repo) (key : GoString) (d1 d2 : Deck) :
    (repo.set key d1).set key d2 = repo.set key d2 := by
  funext k
  unfold Repo.set
  by_cases hk : k = key <;> simp [hk]

theorem map_drop_drop (cards : Option (List Card)) (m n : Nat) :
    (cards.map (List.drop m)).map (List.drop n) = cards.map (List.drop (m + n)) := by
  cases cards with
  | none => rfl
  | some l =>
    simp only [Option.map_some']
    rw [List.drop_drop, Nat.add_comm]

theorem elems_take_add (cards : Option (List Card)) (m n : Nat) :
    elems (cards.map (List.take m)) ++ elems ((cards.map (List.drop m)).map (List.take n)) =
      elems (cards.map (List.take (m + n))) := by
  cases cards with
  | none => rfl
  | some l =>
    simp only [Option.map_some', elems, Option.getD_some]
    rw [List.take_add]

/-- C31: on a deck that is not opened, has a non-empty id and `Remaining == len(Cards)`,
for `a, b >= 0` with `a + b <= Remaining`, a `Draw` of `a` cards and then a `Draw` of `b`
cards from the deck and repository the first left both succeed; the cards of the two
results, in order, are the cards of a single `Draw` of `a + b`, and both ways leave the
same deck and the same repository, with that deck stored under the id. -/
theorem C31_Draws_compose (repo : Repo) (deck : Deck) (a b : Int)
    (hOpened : deck.Opened = false) (hId : deck.UUID ≠ [])
    (hRem : deck.Remaining = len deck.Cards) (ha : 0 ≤ a) (hb : 0 ≤ b)
    (hab : a + b ≤ deck.Remaining) :
    ∃ (drawn1 drawn2 drawn : Option (List Card)) (after1 after2 after : Deck)
      (stored1 stored2 stored : Repo),
      deckService.Draw repo deck a = .done (.ok drawn1, after1, stored1) ∧
      deckService.Draw stored1 after1 b = .done (.ok drawn2, after2, stored2) ∧
      deckService.Draw repo deck (a + b) = .done (.ok drawn, after, stored) ∧
      elems drawn1 ++ elems drawn2 = elems drawn ∧
      elems drawn = (elems deck.Cards).take (a + b).toNat ∧
      after2 = after ∧ stored2 = stored ∧ stored deck.UUID = some after := by
  have hlen1 : a ≤ len deck.Cards := by omega
  have h1 := Draw_ok repo deck a hOpened hId ha (by omega) hlen1
  have hd1 := len_drop deck.Cards a ha hlen1
  have hb2 : b ≤ len (deck.Cards.map (List.drop a.toNat)) := by omega
  have h2 := Draw_ok
    (repo.set deck.UUID
      { deck with Cards := deck.Cards.map (List.drop a.toNat),
                  Remaining := len (deck.Cards.map (List.drop a.toNat)) })
    { deck with Cards := deck.Cards.map (List.drop a.toNat),
                Remaining := len (deck.Cards.map (List.drop a.toNat)) }
    b hOpened hId hb hb2 hb2
  have h3 := Draw_ok repo deck (a + b) hOpened hId (by omega) hab (by omega)
  have hnat : (a + b).toNat = a.toNat + b.toNat := Int.toNat_add ha hb
  have hdrop : (deck.Cards.map (List.drop a.toNat)).map (List.drop b.toNat) =
      deck.Cards.map (List.drop (a + b).toNat) := by
    rw [map_drop_drop, hnat]
  refine ⟨_, _, _, _, _, _, _, _, _, h1, h2, h3, ?_, elems_map _ _ List.take_nil, ?_, ?_, ?_⟩
  · rw [hnat]
    exact elems_take_add deck.Cards a.toNat b.toNat
  · simp only [hdrop]
  · simp only [hdrop, Repo_set_set]
  · simp [Repo.set]

/-- C31 at the deck of 52 cards: a draw of 2 and then of 3 cards gives the first five
cards and leaves the deck and repository a single draw of 5 leaves. -/
theorem C31_Draws_compose_witness :
    sampleDeck.Opened = false ∧ sampleDeck.UUID ≠ [] ∧
    sampleDeck.Remaining = len sampleDeck.Cards ∧ (2 : Int) + 3 ≤ sampleDeck.Remaining ∧
    ∃ (drawn1 drawn2 drawn : Option (List Card)) (after1 after2 after : Deck)
      (stored1 stored2 stored : Repo),
      deckService.Draw NewDeckService sampleDeck 2 = .done (.ok drawn1, after1, stored1) ∧
      deckService.Draw stored1 after1 3 = .done (.ok drawn2, after2, stored2) ∧
      deckService.Draw NewDeckService sampleDeck (2 + 3) = .done (.ok drawn, after, stored) ∧
      elems drawn1 ++ elems drawn2 = elems drawn ∧
      elems drawn = allCards.take 5 ∧
      after2 = after ∧ stored2 = stored ∧ stored sampleDeck.UUID = some after :=
  ⟨rfl, by decide, by decide, by decide,
    C31_Draws_compose NewDeckService sampleDeck 2 3 rfl (by decide) (by decide) (by decide)
      (by decide) (by decide)⟩

end Tbupt
